import Mathlib

/-!
# A verification development for the django-nsync reconciliation engine

This file gives a shallow embedding of the core of the `nsync` package
(`src/nsync/actions.py` and `src/nsync/policies.py`): the object selector,
the model-action family (create / update / delete and their
external-key-mapping aware variants), the action factory, and the sync
policies.  The record store and the `ExternalKeyMapping` table are modelled
as explicit functional state; Python exceptions are modelled with `Except`.

Conventions:
* Python `None`, strings, ints and related-object references are collapsed
  into the `Val` type; attribute dictionaries are association lists.
* A Django model instance is `Obj` (its `pk` is `none` before the first
  save); a persisted table row is `Row`.
* Python exception types that the code raises or catches are the
  constructors of `PyErr`.  `ExternalKeyMapping.DoesNotExist` is a subclass
  of `ObjectDoesNotExist` in Django, so handlers for the latter also catch
  the former; the embedding makes each `catch` site explicit about which
  constructors it handles.
-/

namespace NSync

/-- The Python values that flow through the engine: `None`, strings
(raw CSV cell values, external keys), ints (primary keys resolved from
external-key mappings) and references to related model objects. -/
inductive Val where
  | none
  | str (s : String)
  | int (n : Int)
  | ref (model : String) (pk : Nat)
deriving DecidableEq, Repr

/-- Python truthiness for the values above (`if value:`). -/
def Val.truthy : Val → Bool
  | .none => false
  | .str s => s ≠ ""
  | .int n => n ≠ 0
  | .ref _ _ => true

/-- An attribute dictionary (Python object `__dict__` / CSV row), in
insertion order. -/
abbrev Attrs := List (String × Val)

/-- `getattr(object, k, d)`: the keyword-lookup used throughout. -/
def getattrD (a : Attrs) (k : String) (d : Val) : Val :=
  match a.find? (fun p => p.1 == k) with
  | some p => p.2
  | Option.none => d

/-- `setattr(object, k, v)`. -/
def setattrV (a : Attrs) (k : String) (v : Val) : Attrs :=
  if a.any (fun p => p.1 == k) then
    a.map (fun p => if p.1 == k then (k, v) else p)
  else a ++ [(k, v)]

/-- Python `str.strip()` with no argument (whitespace stripping),
implemented structurally on the character list so that proofs can
evaluate it. -/
def pyStrip (s : String) : String :=
  ⟨((s.data.dropWhile Char.isWhitespace).reverse.dropWhile Char.isWhitespace).reverse⟩

/-- Python `str.split('=>')` (`ModelAction.REFERRED_TO_DELIMITER`),
implemented structurally on the character list. -/
def splitOnArrow : List Char → List (List Char)
  | [] => [[]]
  | '=' :: '>' :: rest => [] :: splitOnArrow rest
  | c :: rest =>
    match splitOnArrow rest with
    | seg :: segs => (c :: seg) :: segs
    | [] => [[c]]

/-- `attribute.split('=>')` as strings. -/
def pySplitArrow (s : String) : List String := (splitOnArrow s.data).map (fun l => ⟨l⟩)

/-- The Python exception types raised or caught by the engine. -/
inductive PyErr where
  | doesNotExist          -- ObjectDoesNotExist for the target model
  | mappingDoesNotExist   -- ExternalKeyMapping.DoesNotExist (subclass of the above)
  | multipleReturned      -- MultipleObjectsReturned
  | integrityError        -- django.db.IntegrityError
  | valueError            -- ValueError
  | attributeError        -- AttributeError
  | typeError             -- TypeError
  | indexError            -- IndexError
deriving DecidableEq, Repr

/-! ## Object selector (`ObjectSelector`, actions.py lines 72-135)

A match specification is a list of tokens; non-operator tokens are field
names, operators are the postfix boolean operators `|`, `&`, `~`.
`get_by` builds a `django.db.models.Q` predicate, modelled by `Q` below. -/

/-- The predicate tree built by `ObjectSelector.get_by` (`django Q`). -/
inductive Q where
  | eq (field : String) (value : Val)
  | and (a b : Q)
  | or (a b : Q)
  | not (a : Q)
deriving DecidableEq, Repr

/-- Evaluating a `Q` predicate against a row's attributes (exact match
lookups only, as built by `build_selector`). -/
def Q.eval : Q → Attrs → Bool
  | .eq f v, r => getattrD r f .none == v
  | .and a b, r => a.eval r && b.eval r
  | .or a b, r => a.eval r || b.eval r
  | .not a, r => !(a.eval r)

/-- `ObjectSelector.OPERATORS`. -/
def OPERATORS : List String := ["|", "&", "~"]

/-- `build_selector(match)`: `Q(**{match: self.fields[match]})`.  The
constructor has validated that every non-operator token is a key of
`fields`, so the lookup is total here (a missing key would be a Python
`KeyError`; we default to `None`, which validated selectors never hit). -/
def build_selector (fields : Attrs) (m : String) : Q :=
  .eq m (getattrD fields m .none)

/-- The validation performed by `ObjectSelector.__init__`: every
non-operator token must be an available field name. -/
def selectorValid (match_on : List String) (fields : Attrs) : Bool :=
  match_on.all fun t => OPERATORS.contains t || fields.any (fun p => p.1 == t)

/-- The postfix-evaluation loop of `ObjectSelector.get_by`
(actions.py lines 105-135), with the operand stack made explicit.
`ValueError` is raised on operand underflow and when more than one
predicate remains at the end. -/
def get_by_loop (fields : Attrs) : List String → List Q → Except PyErr Q
  | [], stack =>
    match stack with
    | [q] => .ok q
    | _ => .error .valueError      -- 'Insufficient operators, stack:{}'
  | m :: rest, stack =>
    if OPERATORS.contains m then
      if m == "~" then
        match stack with
        | q :: s => get_by_loop fields rest (Q.not q :: s)
        | [] => .error .valueError -- 'Insufficient operands for operator:~'
      else
        match stack with
        | op2 :: op1 :: s =>
          -- operands are popped in reverse order (preserves left-to-right reading)
          if m == "|" then get_by_loop fields rest (Q.or op1 op2 :: s)
          else get_by_loop fields rest (Q.and op1 op2 :: s)
        | _ => .error .valueError  -- 'Insufficient operands for operator:{}'
    else
      get_by_loop fields rest (build_selector fields m :: stack)

/-- `ObjectSelector.get_by` (actions.py lines 91-135).  If no operator is
present the listed fields' equality predicates are ANDed left to right
(`match_on[0]` raises `IndexError` on an empty specification); otherwise
the tokens are evaluated as a postfix expression. -/
def get_by (match_on : List String) (fields : Attrs) : Except PyErr Q :=
  if match_on.all (fun t => !OPERATORS.contains t) then
    match match_on with
    | [] => .error .indexError
    | m :: rest =>
      .ok (rest.foldl (fun q t => Q.and q (build_selector fields t)) (build_selector fields m))
  else
    get_by_loop fields match_on []

/-- The stack-depth abstraction of the postfix loop: `depthRun toks d`
simulates only the length of the operand stack, returning `none` on
operand underflow. -/
def depthRun : List String → Nat → Option Nat
  | [], d => some d
  | m :: rest, d =>
    if OPERATORS.contains m then
      if m == "~" then
        match d with
        | 0 => Option.none
        | Nat.succ k => depthRun rest (k + 1)
      else
        match d with
        | 0 => Option.none
        | 1 => Option.none
        | Nat.succ (Nat.succ k) => depthRun rest (k + 1)
    else
      depthRun rest (d + 1)

/-! ## The record store and the external key mapping store

`models.py` is not part of the sources; the `ExternalKeyMapping` model is
therefore modelled from the spec. -/

/-- A persisted row of the target model's table. -/
structure Row where
  pk : Nat
  attrs : Attrs
deriving DecidableEq, Repr

/-- An in-memory model instance (`self.model()` / a fetched object);
`pk` is `none` until the instance is first saved. -/
structure Obj where
  pk : Option Nat
  attrs : Attrs
deriving DecidableEq, Repr

def Row.toObj (r : Row) : Obj := ⟨some r.pk, r.attrs⟩

/-- Modelled from the spec: `ExternalKeyMapping` (models.py is not under
the sources).  Per spec §3 it is the tuple
(external_system, external_key, entity_type, internal_object_id), unique
per (external_system, external_key, entity_type), with a generic foreign
key `content_object` resolving `object_id` within `content_type`.
`pk` is `none` for a freshly constructed, not yet saved, mapping object. -/
structure Mapping where
  pk : Option Nat
  external_system : String
  external_key : String
  content_type : String
  object_id : Option Nat
deriving DecidableEq, Repr

/-- The persistent state: the target model's table, the
`ExternalKeyMapping` table, the tables of related models (keyed by model
name, used by referential field directives), the set of columns of the
target model carrying a uniqueness constraint, and the id sequences. -/
structure DB where
  objects : List Row
  mappings : List Mapping
  related : List (String × List Row)
  uniqueFields : List String
  nextPk : Nat
  nextMapPk : Nat
deriving DecidableEq, Repr

/-- `Model.objects.get(...)` result selection: zero rows raise the
model's `DoesNotExist`, more than one raise `MultipleObjectsReturned`. -/
def getSingle (notFound : PyErr) : List α → Except PyErr α
  | [x] => .ok x
  | [] => .error notFound
  | _ => .error .multipleReturned

/-- Rows of a related model's table (`field.related_model.objects`). -/
def DB.rowsOf (db : DB) (model : String) : List Row :=
  match db.related.find? (fun p => p.1 == model) with
  | some p => p.2
  | Option.none => []

/-- `self.model.objects.get(<predicate>)`. -/
def DB.modelGet (db : DB) (q : Q) : Except PyErr Row :=
  getSingle .doesNotExist (db.objects.filter (fun r => q.eval r.attrs))

/-- `ExternalKeyMapping.objects.get(external_system=…, external_key=…,
content_type=…)`; the external key argument is a raw `Val` (a CSV cell),
matching a mapping row only when it is that row's key string. -/
def DB.mappingGetSKC (db : DB) (es : Option String) (key : Val)
    (ct : String) : Except PyErr Mapping :=
  getSingle .mappingDoesNotExist (db.mappings.filter (fun m =>
    es == some m.external_system && key == .str m.external_key
      && m.content_type == ct))

/-- `ExternalKeyMapping.objects.get(object_id=…, content_type=…,
external_key=…)` — the lookup used by
`DeleteIfOnlyReferenceModelAction.execute` when a match specification is
present (actions.py lines 631-635).  Note that it does *not* constrain
`external_system`. -/
def DB.mappingGetOCK (db : DB) (oid : Nat) (ct : String)
    (key : String) : Except PyErr Mapping :=
  getSingle .mappingDoesNotExist (db.mappings.filter (fun m =>
    m.object_id == some oid && m.content_type == ct && m.external_key == key))

/-- The generic foreign key `mapping.content_object`: the row of
`content_type` whose pk is `object_id`, or `None` when unset or when the
row no longer exists.  Modelled from the spec (models.py not in sources);
Django's `GenericForeignKey.__get__` returns `None` on a missing target. -/
def DB.content_object (db : DB) (ct : String) (m : Mapping) : Option Row :=
  match m.object_id with
  | some i => if m.content_type == ct then db.objects.find? (fun r => r.pk == i) else Option.none
  | Option.none => Option.none

/-- The uniqueness check enforced by the store on `save`: some unique
column of another row holds the same value. -/
def DB.violatesUnique (db : DB) (o : Obj) : Bool :=
  db.uniqueFields.any (fun c =>
    db.objects.any (fun r =>
      o.pk != some r.pk && getattrD r.attrs c .none == getattrD o.attrs c .none))

/-- `Model.save(obj)` against the generic record-store interface (the
store itself is an external collaborator per spec §1): insert with a
fresh id when `pk` is unset, update the row in place otherwise; a
uniqueness violation raises `IntegrityError`. -/
def DB.save (db : DB) (o : Obj) : Except PyErr (Row × DB) :=
  if db.violatesUnique o then .error .integrityError
  else
    match o.pk with
    | some i =>
      .ok (⟨i, o.attrs⟩,
           { db with objects := db.objects.map (fun r => if r.pk == i then ⟨i, o.attrs⟩ else r) })
    | Option.none =>
      .ok (⟨db.nextPk, o.attrs⟩,
           { db with objects := db.objects ++ [⟨db.nextPk, o.attrs⟩],
                     nextPk := db.nextPk + 1 })

/-- `Model.delete(obj)`.  Per spec §3 the mappings pointing at the
deleted record are cascaded away with it. -/
def DB.deleteRow (db : DB) (ct : String) (pk : Nat) : DB :=
  { db with
    objects := db.objects.filter (fun r => r.pk != pk),
    mappings := db.mappings.filter (fun m =>
      !(m.content_type == ct && m.object_id == some pk)) }

/-- Uniqueness of `ExternalKeyMapping` per (system, key, type) —
spec §3's invariant, checked on mapping save. -/
def DB.mappingViolatesUnique (db : DB) (m : Mapping) : Bool :=
  db.mappings.any (fun m0 =>
    m.pk != m0.pk && m0.external_system == m.external_system
      && m0.external_key == m.external_key && m0.content_type == m.content_type)

/-- `external_mapping_obj.save()`: insert or update the mapping row. -/
def DB.mappingSave (db : DB) (m : Mapping) : Except PyErr (Mapping × DB) :=
  if db.mappingViolatesUnique m then .error .integrityError
  else
    match m.pk with
    | some i =>
      .ok ({ m with pk := some i },
           { db with mappings := db.mappings.map (fun m0 => if m0.pk == some i then m else m0) })
    | Option.none =>
      let m' := { m with pk := some db.nextMapPk }
      .ok (m', { db with mappings := db.mappings ++ [m'], nextMapPk := db.nextMapPk + 1 })

/-! ## Model actions (`ModelAction` family, actions.py lines 138-708)

The schema-introspection collaborator (`object._meta`) is modelled by
`ModelMeta`.  Only plain scalar fields and concrete single-valued
relations are modelled; reverse accessors and many-to-many relations are
outside the modelled schema (no claim depends on them). -/

/-- What `object._meta.get_field(attribute)` reports for a field:
nullability, JSON-typedness, and the related model for a concrete
single-valued relation. -/
structure FieldInfo where
  isNull : Bool := false
  isJSON : Bool := false
  relatedModel : Option String := Option.none
deriving DecidableEq, Repr

/-- The target model's schema: its name (also used as its content type
label and db_table), its fields, its generic foreign keys as
(fk_field, ct_field) pairs, and `ast.literal_eval` for JSON cells
(`none` models a parse failure, which keeps the raw string). -/
structure ModelMeta where
  name : String
  fields : List (String × FieldInfo)
  genericFks : List (String × String)
  literalEval : String → Option Val

def ModelMeta.get_field (meta : ModelMeta) (a : String) : Option FieldInfo :=
  (meta.fields.find? (fun p => p.1 == a)).map Prod.snd

/-- The state held by a `ModelAction`: model, match specification, field
update directives and the factory-level configuration. -/
structure ActionCtx where
  meta : ModelMeta
  match_on : List String
  fields : Attrs
  rel_by_external_key : Bool := false
  rel_by_external_key_excluded : List String := []
  external_system : Option String := Option.none

/-- `ModelAction.is_rel_model_mapped` (actions.py lines 365-366). -/
def is_rel_model_mapped (ctx : ActionCtx) (relatedModel : String) : Bool :=
  ctx.rel_by_external_key && !(ctx.rel_by_external_key_excluded.contains relatedModel)

/-- `ModelAction.get_object` (actions.py lines 183-185). -/
def get_object (ctx : ActionCtx) (db : DB) : Except PyErr Row := do
  let q ← get_by ctx.match_on ctx.fields
  db.modelGet q

/-- `ModelAction.get_object_id_by_external_key` (actions.py lines
187-197): resolve an external key into the mapped internal object id;
`ExternalKeyMapping.DoesNotExist` is logged and re-raised. -/
def get_object_id_by_external_key (ctx : ActionCtx) (db : DB) (external_key : Val)
    (ct : String) : Except PyErr Val := do
  let m ← db.mappingGetSKC ctx.external_system external_key ct
  match m.object_id with
  | some i => .ok (.int i)
  | Option.none => .ok .none

/-- The JSON step of the plain-attribute branch (actions.py lines
242-246): a JSON field's truthy string value is parsed with
`ast.literal_eval`, keeping the raw string on a parse failure. -/
def jsonTransform (meta : ModelMeta) (fi : FieldInfo) (v : Val) : Val :=
  if fi.isJSON && v.truthy then
    match v with
    | .str s => (meta.literalEval s).getD v
    | _ => v
  else v

/-- The value transformations of the plain-attribute branch of
`update_from_fields` (actions.py lines 235-248): empty-to-null for
nullable fields, external-key resolution for mapped relational fields,
literal parsing for JSON fields; a missing field
(`FieldDoesNotExist`) skips all transformations. -/
def plainTransform (ctx : ActionCtx) (db : DB) (attr : String)
    (value : Val) : Except PyErr Val :=
  match ctx.meta.get_field attr with
  | Option.none => .ok value
  | some fi =>
    let v1 := if fi.isNull && value == Val.str "" then Val.none else value
    match fi.relatedModel with
    | some rm =>
      if v1.truthy && is_rel_model_mapped ctx rm then
        (get_object_id_by_external_key ctx db v1 rm).map (jsonTransform ctx.meta fi)
      else .ok (jsonTransform ctx.meta fi v1)
    | Option.none => .ok (jsonTransform ctx.meta fi v1)

/-- The accumulator threaded through the first `update_from_fields`
loop: the object being updated, `referential_attributes` (a dict of
dicts in insertion order) and `generic_fk_objs`. -/
structure UffAcc where
  obj : Obj
  refs : List (String × List (String × Val))
  gfks : List (String × Val)
deriving Repr

/-- `referential_attributes[base][sub] = value` on a defaultdict of
dicts. -/
def refInsert (acc : List (String × List (String × Val))) (base sub : String)
    (v : Val) : List (String × List (String × Val)) :=
  if acc.any (fun p => p.1 == base) then
    acc.map (fun p => if p.1 == base then (base, setattrV p.2 sub v) else p)
  else acc ++ [(base, [(sub, v)])]

/-- One plain-attribute iteration of the first loop of
`update_from_fields` (actions.py lines 230-252): unforced updates skip
attributes whose current value is neither `None` nor the empty string;
otherwise the (transformed) value is assigned, and recorded in
`generic_fk_objs` when it is a generic foreign key's id field. -/
def uff_plain_step (ctx : ActionCtx) (db : DB) (force : Bool)
    (attr : String) (value : Val) (acc : UffAcc) : Except PyErr UffAcc :=
  if !force && !(getattrD acc.obj.attrs attr .none == Val.none
      || getattrD acc.obj.attrs attr .none == Val.str "") then
    .ok acc
  else do
    let v ← plainTransform ctx db attr value
    let gfks := if ctx.rel_by_external_key
                    && (ctx.meta.genericFks.map Prod.fst).contains attr then
                  setattrV acc.gfks attr v
                else acc.gfks
    .ok { obj := { acc.obj with attrs := setattrV acc.obj.attrs attr v },
          refs := acc.refs, gfks := gfks }

/-- The first loop of `update_from_fields` (actions.py lines 226-252):
directives whose key contains `=>` (with a non-empty value) are bucketed
as referential attributes, all others are applied as plain attributes. -/
def uff_phase1 (ctx : ActionCtx) (db : DB) (force : Bool) :
    List (String × Val) → UffAcc → Except PyErr UffAcc
  | [], acc => .ok acc
  | (attr, value) :: rest, acc =>
    match pySplitArrow attr with
    | p0 :: p1 :: _ =>
      if value != Val.str "" then
        uff_phase1 ctx db force rest { acc with refs := refInsert acc.refs p0 p1 value }
      else do
        let acc' ← uff_plain_step ctx db force attr value acc
        uff_phase1 ctx db force rest acc'
    | _ => do
      let acc' ← uff_plain_step ctx db force attr value acc
      uff_phase1 ctx db force rest acc'

/-- One referential-attribute iteration of the second loop of
`update_from_fields` (actions.py lines 254-343), for a concrete
single-valued relation: unforced updates skip when a related value is
already set; the related record is located by the sub-match fields and
assigned; not-found and multiple-found are logged and skipped. -/
def uff_ref_step (ctx : ActionCtx) (db : DB) (force : Bool) (attr : String)
    (get_by' : List (String × Val)) (obj : Obj) : Obj :=
  match ctx.meta.get_field attr with
  | Option.none => obj
  | some fi =>
    match fi.relatedModel with
    | Option.none => obj
    | some rm =>
      if !force && getattrD obj.attrs attr .none != Val.none then obj
      else
        match getSingle PyErr.doesNotExist ((db.rowsOf rm).filter (fun r =>
            get_by'.all (fun p => getattrD r.attrs p.1 .none == p.2))) with
        | .ok target => { obj with attrs := setattrV obj.attrs attr (.ref rm target.pk) }
        | .error _ => obj

/-- The second loop of `update_from_fields`. -/
def uff_phase2 (ctx : ActionCtx) (db : DB) (force : Bool) :
    List (String × List (String × Val)) → Obj → Obj
  | [], obj => obj
  | (a, gb) :: rest, obj => uff_phase2 ctx db force rest (uff_ref_step ctx db force a gb obj)

/-- A content-type value read back from the object's content-type
column, as a content-type label. -/
def Val.asCtName : Val → String
  | .str s => s
  | .ref m _ => m
  | _ => ""

/-- One iteration of the generic-foreign-key loop of
`update_from_fields` (actions.py lines 345-363): find the paired
content-type field, resolve the buffered value as an external key within
that content type, and assign it; a missing content type raises
`ValueError`. -/
def uff_gfk_step (ctx : ActionCtx) (db : DB) (gfkAttr : String) (value : Val)
    (obj : Obj) : Except PyErr Obj := do
  let ctVal := match ctx.meta.genericFks.find? (fun p => p.1 == gfkAttr) with
    | some p => getattrD obj.attrs p.2 .none
    | Option.none => Val.none
  if ctVal.truthy then do
    let v ← get_object_id_by_external_key ctx db value ctVal.asCtName
    .ok { obj with attrs := setattrV obj.attrs gfkAttr v }
  else .error .valueError

/-- The generic-foreign-key loop of `update_from_fields`. -/
def uff_phase3 (ctx : ActionCtx) (db : DB) :
    List (String × Val) → Obj → Except PyErr Obj
  | [], obj => .ok obj
  | (a, v) :: rest, obj => do
    let obj' ← uff_gfk_step ctx db a v obj
    uff_phase3 ctx db rest obj'

/-- `ModelAction.update_from_fields` (actions.py lines 203-363). -/
def update_from_fields (ctx : ActionCtx) (db : DB) (obj : Obj)
    (force : Bool) : Except PyErr Obj := do
  let acc ← uff_phase1 ctx db force ctx.fields ⟨obj, [], []⟩
  uff_phase3 ctx db acc.gfks (uff_phase2 ctx db force acc.refs acc.obj)

/-- The outcome of a Create-style `execute`: the returned object (or
`None`), the resulting store, and the `obj_already_created` flag the bulk
policy inspects. -/
structure CreateOut where
  result : Option Obj
  db : DB
  obj_already_created : Bool
deriving Repr

/-- The fresh-instance path of `CreateModelAction.execute` (actions.py
lines 394-413): instantiate, apply all field directives with forced
overwrite, and persist unless deferred for bulk.  A failing external-key
mapping lookup (`ExternalKeyMapping.DoesNotExist`) returns `None`; no
multi-table parents are modelled, so persistence is `Model.save`. -/
def createFresh (ctx : ActionCtx) (use_bulk : Bool) (db : DB) :
    Except PyErr CreateOut :=
  match update_from_fields ctx db ⟨Option.none, []⟩ true with
  | .error .mappingDoesNotExist => .ok ⟨Option.none, db, false⟩
  | .error e => .error e
  | .ok obj1 =>
    if use_bulk then .ok ⟨some obj1, db, false⟩
    else
      match db.save obj1 with
      | .ok (r, db') => .ok ⟨some r.toObj, db', false⟩
      | .error e => .error e

/-- `CreateModelAction.execute` (actions.py lines 382-413): when a match
specification is given and not bypassed, a found object is returned
unchanged (`obj_already_created`), a multiple-match is logged and returns
`None`, and not-found falls through to creating a fresh instance. -/
def CreateModelAction.execute (ctx : ActionCtx) (force_init use_bulk : Bool)
    (db : DB) : Except PyErr CreateOut :=
  if ctx.match_on != [] && !force_init then
    match get_object ctx db with
    | .ok r => .ok ⟨some r.toObj, db, true⟩
    | .error .doesNotExist => createFresh ctx use_bulk db
    | .error .multipleReturned => .ok ⟨Option.none, db, false⟩
    | .error e => .error e
  else createFresh ctx use_bulk db

/-- `ReferenceActionMixin.get_or_init_ext_mapp` (actions.py lines
426-444): a fresh unsaved mapping when `force_init` is set or when no
row exists for (system, key, type); the existing row otherwise. -/
def get_or_init_ext_mapp (es externalKey ct : String) (force_init : Bool)
    (db : DB) : Except PyErr Mapping :=
  let inst : Mapping := ⟨Option.none, es, externalKey, ct, Option.none⟩
  if force_init then .ok inst
  else
    match db.mappingGetSKC (some es) (.str externalKey) ct with
    | .ok m => .ok m
    | .error .mappingDoesNotExist => .ok inst
    | .error e => .error e

/-- `ReferenceActionMixin.map_to_external_object`. -/
def map_to_external_object (m : Mapping) (o : Obj) : Mapping :=
  { m with object_id := o.pk }

/-- Truthiness of `model_obj.pk` (a pk of 0 would be falsy). -/
def pkTruthy : Option Nat → Bool
  | some n => n != 0
  | Option.none => false

/-- The outcome of `CreateModelWithReferenceAction.execute`: additionally
carries `self.external_mapping_obj` (read by the bulk policy) and
whether the base Create ran (the mapping had no linked object). -/
structure CreateRefOut where
  result : Option Obj
  db : DB
  obj_already_created : Bool
  external_mapping_obj : Mapping
  ranBaseCreate : Bool
deriving Repr

/-- `CreateModelWithReferenceAction.execute` (actions.py lines 474-483):
if the mapping already links to an object it is returned unchanged;
otherwise the base Create runs; outside bulk mode, a persisted object
whose id differs from the mapping's is (re)linked and the mapping
saved. -/
def CreateModelWithReferenceAction.execute (ctx : ActionCtx) (es externalKey : String)
    (force_init use_bulk : Bool) (db : DB) : Except PyErr CreateRefOut := do
  let mapping ← get_or_init_ext_mapp es externalKey ctx.meta.name force_init db
  let step : Except PyErr (Option Obj × DB × Bool × Bool) :=
    match db.content_object ctx.meta.name mapping with
    | some r => .ok (some r.toObj, db, false, false)
    | Option.none =>
      match CreateModelAction.execute ctx force_init use_bulk db with
      | .ok out => .ok (out.result, out.db, out.obj_already_created, true)
      | .error e => .error e
  match step with
  | .error e => .error e
  | .ok (result, db1, already, ranBase) =>
    match result with
    | some o =>
      if !use_bulk && pkTruthy o.pk && o.pk != mapping.object_id then
        let m2 := map_to_external_object mapping o
        match db1.mappingSave m2 with
        | .ok (m3, db2) => .ok ⟨some o, db2, already, m3, ranBase⟩
        | .error e => .error e
      else .ok ⟨some o, db1, already, mapping, ranBase⟩
    | Option.none => .ok ⟨Option.none, db1, already, mapping, ranBase⟩

/-- The `try` body of `UpdateModelAction.execute` (actions.py lines
517-525): find exactly one matching record, apply the field directives,
persist unless deferred for bulk. -/
def UpdateModelAction.tryBody (ctx : ActionCtx) (force_update use_bulk : Bool)
    (db : DB) : Except PyErr (Option Obj × DB) := do
  let r ← get_object ctx db
  let obj ← update_from_fields ctx db r.toObj force_update
  if use_bulk then .ok (some obj, db)
  else do
    let (r2, db2) ← db.save obj
    .ok (some r2.toObj, db2)

/-- `UpdateModelAction.execute` (actions.py lines 516-535): not-found,
a missing external key mapping, multiple matches and integrity errors
are caught and degrade to a `None` return. -/
def UpdateModelAction.execute (ctx : ActionCtx) (force_update use_bulk : Bool)
    (db : DB) : Except PyErr (Option Obj × DB) :=
  match UpdateModelAction.tryBody ctx force_update use_bulk db with
  | .error .doesNotExist => .ok (Option.none, db)
  | .error .mappingDoesNotExist => .ok (Option.none, db)
  | .error .multipleReturned => .ok (Option.none, db)
  | .error .integrityError => .ok (Option.none, db)
  | other => other

/-- `UpdateModelWithReferenceAction.execute` (actions.py lines 560-605):
resolve the mapping-linked record and the match-specification record
independently; when both exist and differ the matched one is deleted;
field updates go to the linked record when it exists, else to the
matched one; with neither, return `None`.  After a successful save the
mapping is synchronized when the target id changed. -/
def UpdateModelWithReferenceAction.execute (ctx : ActionCtx) (es externalKey : String)
    (force_update use_bulk : Bool) (db : DB) : Except PyErr (Option Obj × DB) := do
  let mapping ← get_or_init_ext_mapp es externalKey ctx.meta.name false db
  let linked := db.content_object ctx.meta.name mapping
  let matchedE : Except PyErr (Option Row) :=
    match get_object ctx db with
    | .ok r => .ok (some r)
    | .error .doesNotExist => .ok Option.none
    | .error e => .error e
  match matchedE with
  | .error .multipleReturned => .ok (Option.none, db)
  | .error e => .error e
  | .ok matched =>
    -- if both matched and linked objects exist but are different, get rid
    -- of the matched one
    let db1 := match matched, linked with
      | some m, some l => if m.pk != l.pk then db.deleteRow ctx.meta.name m.pk else db
      | _, _ => db
    match (match linked with | some l => some l | Option.none => matched) with
    | Option.none => .ok (Option.none, db1)
    | some mo =>
      match update_from_fields ctx db1 mo.toObj force_update with
      | .error .mappingDoesNotExist => .ok (Option.none, db1)
      | .error e => .error e
      | .ok obj1 =>
        let savedE : Except PyErr (Obj × DB) :=
          if use_bulk then .ok (obj1, db1)
          else
            match db1.save obj1 with
            | .ok (r2, db2) => .ok (r2.toObj, db2)
            | .error e => .error e
        match savedE with
        | .error .integrityError => .ok (Option.none, db1)
        | .error e => .error e
        | .ok (o2, db2) =>
          if !use_bulk && o2.pk != mapping.object_id then do
            let (_, db3) ← db2.mappingSave (map_to_external_object mapping o2)
            .ok (some o2, db3)
          else .ok (some o2, db2)

/-- `DeleteModelAction.execute` (actions.py lines 666-682): delete the
given or located object (unless deferred for bulk); not-found is
silently success, multiple matches are logged and return `None`. -/
def DeleteModelAction.execute (ctx : ActionCtx) (objArg : Option Row)
    (use_bulk : Bool) (db : DB) : Except PyErr (Option Obj × DB) :=
  match (match objArg with
         | some o => (.ok o : Except PyErr Row)
         | Option.none => get_object ctx db) with
  | .ok o =>
    if use_bulk then .ok (some o.toObj, db)
    else .ok (some o.toObj, db.deleteRow ctx.meta.name o.pk)
  | .error .doesNotExist => .ok (Option.none, db)
  | .error .multipleReturned => .ok (Option.none, db)
  | .error e => .error e

/-- The `try` body of `DeleteIfOnlyReferenceModelAction.execute`
(actions.py lines 627-651).  With a match specification, the target is
located and the key-mapping row is fetched by
`(object_id, content_type, external_key)` — constraining this action's
key but **not** its external system — and the delete runs when that
row's system is this action's system.  Without one, the mapping for
(system, key, type) locates the target through its generic foreign
key. -/
def DeleteIfOnlyReferenceModelAction.tryBody (ctx : ActionCtx) (es externalKey : String)
    (use_bulk : Bool) (db : DB) : Except PyErr (Option Obj × DB) :=
  if ctx.match_on != [] then do
    let obj ← get_object ctx db
    let key_mapping ← db.mappingGetOCK obj.pk ctx.meta.name externalKey
    if key_mapping.external_system == es then
      DeleteModelAction.execute ctx (some obj) use_bulk db
    else
      .ok (Option.none, db)
  else do
    let key_mapping ← db.mappingGetSKC (some es) (.str externalKey) ctx.meta.name
    match db.content_object ctx.meta.name key_mapping with
    | some obj => DeleteModelAction.execute ctx (some obj) use_bulk db
    | Option.none => .ok (Option.none, db)

/-- `DeleteIfOnlyReferenceModelAction.execute` (actions.py lines
626-657): multiple key mappings / target objects, and missing objects or
mappings, abort without deleting. -/
def DeleteIfOnlyReferenceModelAction.execute (ctx : ActionCtx) (es externalKey : String)
    (use_bulk : Bool) (db : DB) : Except PyErr (Option Obj × DB) :=
  match DeleteIfOnlyReferenceModelAction.tryBody ctx es externalKey use_bulk db with
  | .error .multipleReturned => .ok (Option.none, db)
  | .error .doesNotExist => .ok (Option.none, db)
  | .error .mappingDoesNotExist => .ok (Option.none, db)
  | other => other

/-- `DeleteExternalReferenceAction.execute` (actions.py lines 699-708):
delete all `ExternalKeyMapping` rows for (system, key, type); always
succeeds and returns nothing. -/
def DeleteExternalReferenceAction.execute (ct : String) (es : Option String)
    (externalKey : Val) (db : DB) : Option Obj × DB :=
  (Option.none,
   { db with mappings := db.mappings.filter (fun m =>
       !(es == some m.external_system && externalKey == .str m.external_key
          && m.content_type == ct)) })

/-! ## Action factory (`ActionFactory` / `SyncActions`,
actions.py lines 711-895) -/

/-- `SyncActions` (actions.py lines 870-895).  The constructor raises on
`delete ∧ create` and on `delete ∧ update`; `SyncActions.valid` captures
that invariant for constructed instances. -/
structure SyncActions where
  create : Bool := false
  update : Bool := false
  delete : Bool := false
  force : Bool := false
deriving DecidableEq, Repr

def SyncActions.is_impotent (sa : SyncActions) : Bool :=
  !(sa.create || sa.update || sa.delete)

def SyncActions.valid (sa : SyncActions) : Bool :=
  !(sa.delete && sa.create) && !(sa.delete && sa.update)

/-- `ActionFactory.is_externally_mappable` (actions.py lines 782-798):
an external system must be configured and the key must be a non-null,
non-whitespace-only string. -/
def is_externally_mappable (external_system : Option String) (external_key : Val) : Bool :=
  match external_system with
  | Option.none => false
  | some _ =>
    match external_key with
    | .str s => pyStrip s != ""
    | _ => false

/-- The action descriptors produced by `ActionFactory.build`, mirroring
the constructor calls in actions.py lines 820-865. -/
inductive BuiltAction where
  | modelAction (match_on : List String) (fields : Attrs)
  | deleteModel (match_on : List String) (fields : Attrs)
  | deleteIfOnlyReference (external_system : Option String) (external_key : Val)
      (inner : BuiltAction)
  | deleteExternalReference (external_system : Option String) (external_key : Val)
  | createModel (force_init : Bool) (match_on : List String) (fields : Attrs)
  | createWithReference (external_system : Option String) (external_key : Val)
      (force_init : Bool) (match_on : List String) (fields : Attrs)
  | updateModel (force_update : Bool) (match_on : List String) (fields : Attrs)
  | updateWithReference (external_system : Option String) (external_key : Val)
      (force_update : Bool) (match_on : List String) (fields : Attrs)
deriving DecidableEq, Repr

/-- `ActionFactory.build` (actions.py lines 800-867): an impotent request
yields the no-op base action; a delete is wrapped in DeleteIfOnlyReference
when mappable and unforced, and mappable deletes always also append a
DeleteExternalReference; create and update pick the reference-aware
variant exactly when mappable. -/
def ActionFactory.build (external_system : Option String) (force_init : Bool)
    (sa : SyncActions) (match_on : List String) (external_system_key : Val)
    (fields : Attrs) : List BuiltAction :=
  (if sa.is_impotent then [.modelAction match_on fields] else [])
  ++ (if sa.delete then
        (let d := BuiltAction.deleteModel match_on fields
         if is_externally_mappable external_system external_system_key then
           (if !sa.force then
              [.deleteIfOnlyReference external_system external_system_key d]
            else [d])
           ++ [.deleteExternalReference external_system external_system_key]
         else if sa.force then [d] else [])
      else [])
  ++ (if sa.create then
        [if is_externally_mappable external_system external_system_key then
           .createWithReference external_system external_system_key force_init match_on fields
         else .createModel force_init match_on fields]
      else [])
  ++ (if sa.update then
        [if is_externally_mappable external_system external_system_key then
           .updateWithReference external_system external_system_key sa.force match_on fields
         else .updateModel sa.force match_on fields]
      else [])

/-- `action.type` of a built action (the `type` properties of the action
classes; `DeleteIfOnlyReferenceModelAction.type` delegates to the
wrapped action's type, the base action's type is the empty string). -/
def BuiltAction.type : BuiltAction → String
  | .modelAction _ _ => ""
  | .deleteModel _ _ => "delete"
  | .deleteIfOnlyReference _ _ inner => inner.type
  | .deleteExternalReference _ _ => "delete"
  | .createModel _ _ _ => "create"
  | .createWithReference _ _ _ _ _ => "create"
  | .updateModel _ _ _ => "update"
  | .updateWithReference _ _ _ _ _ => "update"

/-- Whether a built action is delete-related (the plain delete, the
reference-counting wrapper, or the mapping cleanup). -/
def BuiltAction.isDeleteRelated : BuiltAction → Bool
  | .deleteModel _ _ => true
  | .deleteIfOnlyReference _ _ _ => true
  | .deleteExternalReference _ _ => true
  | _ => false

/-! ## Sync policies (policies.py)

The policies drive generic actions; `PolicyAction` is the interface they
rely on (`execute(use_bulk)`, `type`, `fields`, `obj_already_created`,
and `external_mapping_obj` for reference-aware actions). -/

/-- An action as seen by a sync policy. -/
inductive PolicyAction where
  | createPlain (ctx : ActionCtx) (forceInit : Bool)
  | createRef (es externalKey : String) (ctx : ActionCtx) (forceInit : Bool)
  | updatePlain (ctx : ActionCtx) (forceUpdate : Bool)
  | deletePlain (ctx : ActionCtx)

/-- `action.type`. -/
def PolicyAction.type : PolicyAction → String
  | .createPlain _ _ => "create"
  | .createRef _ _ _ _ => "create"
  | .updatePlain _ _ => "update"
  | .deletePlain _ => "delete"

/-- `action.fields`. -/
def PolicyAction.fieldsOf : PolicyAction → Attrs
  | .createPlain ctx _ => ctx.fields
  | .createRef _ _ ctx _ => ctx.fields
  | .updatePlain ctx _ => ctx.fields
  | .deletePlain ctx => ctx.fields

/-- `isinstance(action, ReferenceActionMixin)`. -/
def PolicyAction.isRef : PolicyAction → Bool
  | .createRef _ _ _ _ => true
  | _ => false

/-- `action.execute(use_bulk=True)`, returning the instance, the store,
`obj_already_created` and `external_mapping_obj`. -/
def PolicyAction.executeBulk :
    PolicyAction → DB → Except PyErr (Option Obj × DB × Bool × Option Mapping)
  | .createPlain ctx fi, db =>
    (CreateModelAction.execute ctx fi true db).map fun o =>
      (o.result, o.db, o.obj_already_created, Option.none)
  | .createRef es k ctx fi, db =>
    (CreateModelWithReferenceAction.execute ctx es k fi true db).map fun o =>
      (o.result, o.db, o.obj_already_created, some o.external_mapping_obj)
  | .updatePlain ctx fu, db =>
    (UpdateModelAction.execute ctx fu true db).map fun p => (p.1, p.2, false, Option.none)
  | .deletePlain ctx, db =>
    (DeleteModelAction.execute ctx Option.none true db).map fun p => (p.1, p.2, false, Option.none)

/-- `action.execute(use_bulk=False)` (the immediate policies). -/
def PolicyAction.executeNB : PolicyAction → DB → Except PyErr (Option Obj × DB)
  | .createPlain ctx fi, db =>
    (CreateModelAction.execute ctx fi false db).map fun o => (o.result, o.db)
  | .createRef es k ctx fi, db =>
    (CreateModelWithReferenceAction.execute ctx es k fi false db).map fun o => (o.result, o.db)
  | .updatePlain ctx fu, db => UpdateModelAction.execute ctx fu false db
  | .deletePlain ctx, db => DeleteModelAction.execute ctx Option.none false db

/-- One flush-cycle invocation of the bulk policy, with the size of the
buffer it was invoked on. -/
inductive FlushEvent where
  | create (n : Nat)
  | update (n : Nat)
  | delete (n : Nat)
deriving DecidableEq, Repr

/-- The in-memory state of `BulkSyncPolicy` (policies.py lines 130-147),
plus a log of flush-cycle invocations for observation. -/
structure BulkState where
  db : DB
  create_instances : List Obj
  create_ref_instances : List Mapping
  update_instances : List Obj
  update_ref_instances : List Mapping
  delete_instances : List Obj
  header : List String
  num_of_model_actions : Nat
  num_of_executed_actions : Nat
  log : List FlushEvent

/-- `Model.objects.bulk_create(instances)`: one multi-row insert; the
store assigns ids to rows that have none (PostgreSQL returns them). -/
def DB.bulkCreateRows : DB → List Obj → List Row × DB
  | db, [] => ([], db)
  | db, o :: rest =>
    let (r, db1) : Row × DB := match o.pk with
      | some i => (⟨i, o.attrs⟩, { db with objects := db.objects ++ [⟨i, o.attrs⟩] })
      | Option.none => (⟨db.nextPk, o.attrs⟩,
          { db with objects := db.objects ++ [⟨db.nextPk, o.attrs⟩], nextPk := db.nextPk + 1 })
    let (rs, db2) := DB.bulkCreateRows db1 rest
    (r :: rs, db2)

/-- `ExternalKeyMapping.objects.bulk_create(instances)`. -/
def DB.bulkCreateMappings : DB → List Mapping → DB
  | db, [] => db
  | db, m :: rest =>
    let m' := match m.pk with
      | some _ => m
      | Option.none => { m with pk := some db.nextMapPk }
    DB.bulkCreateMappings
      { db with mappings := db.mappings ++ [m'],
                nextMapPk := if m.pk == Option.none then db.nextMapPk + 1 else db.nextMapPk }
      rest

/-- `Model.objects.bulk_update(instances, fields)`: update rows by pk;
of duplicate instances only the first applies. -/
def DB.bulkUpdateRows (db : DB) (objs : List Obj) : DB :=
  { db with objects := db.objects.map (fun r =>
      match objs.find? (fun o => o.pk == some r.pk) with
      | some o => ⟨r.pk, o.attrs⟩
      | Option.none => r) }

/-- `ExternalKeyMapping.objects.bulk_update(instances, ['object_id'])`. -/
def DB.bulkUpdateMappings (db : DB) (ms : List Mapping) : DB :=
  { db with mappings := db.mappings.map (fun m0 =>
      match ms.find? (fun m => m.pk == m0.pk && m.pk != Option.none) with
      | some m => { m0 with object_id := m.object_id }
      | Option.none => m0) }

/-- `BulkSyncPolicy.bulk_create_with_ref` (policies.py lines 220-225):
flush the create buffer in one multi-row insert, then link and insert
the paired mapping rows. -/
def bulk_create_with_ref (st : BulkState) : BulkState :=
  let n := st.create_instances.length
  let (created, db1) := st.db.bulkCreateRows st.create_instances
  let db2 :=
    if st.create_ref_instances != [] then
      db1.bulkCreateMappings ((created.zip st.create_ref_instances).map
        (fun p => { p.2 with object_id := some p.1.pk }))
    else db1
  { st with db := db2,
            create_instances := [],
            create_ref_instances := [],
            num_of_executed_actions := st.num_of_executed_actions + created.length,
            log := st.log ++ [.create n] }

/-- `BulkSyncPolicy.bulk_update_with_ref` (policies.py lines 227-232). -/
def bulk_update_with_ref (st : BulkState) : BulkState :=
  let n := st.update_instances.length
  let db1 := if n > 0 then st.db.bulkUpdateRows st.update_instances else st.db
  let db2 :=
    if st.update_ref_instances != [] then
      db1.bulkUpdateMappings ((st.update_instances.zip st.update_ref_instances).map
        (fun p => { p.2 with object_id := p.1.pk }))
    else db1
  { st with db := db2,
            update_instances := [],
            update_ref_instances := [],
            num_of_executed_actions := st.num_of_executed_actions + n,
            log := st.log ++ [.update n] }

/-- `BulkSyncPolicy.bulk_delete` (policies.py lines 279-296): one
`pk__in` delete over the buffered instances. -/
def bulk_delete (st : BulkState) : BulkState :=
  let n := st.delete_instances.length
  let ids := st.delete_instances.filterMap (fun o => o.pk)
  let db1 :=
    if n > 0 then
      { st.db with
        objects := st.db.objects.filter (fun r => !ids.contains r.pk) }
    else st.db
  { st with db := db1,
            delete_instances := [],
            num_of_executed_actions := st.num_of_executed_actions + (if n > 0 then n else 0),
            log := st.log ++ [.delete n] }

/-- `BulkSyncPolicy.execute_row_action` (policies.py lines 195-218):
execute with deferred persistence, buffer the instance by action type
(skipping create actions whose object already existed), and flush a
buffer exactly when its length reaches the batch size. -/
def execute_row_action (batch_size : Nat) (a : PolicyAction) (st : BulkState) :
    Except PyErr BulkState := do
  let (inst, db1, already, extMap) ← a.executeBulk st.db
  let st := { st with db := db1 }
  match inst with
  | Option.none => .ok st
  | some o =>
    if a.type == "create" && !already then
      let st := { st with
        create_instances := st.create_instances ++ [o],
        create_ref_instances := st.create_ref_instances ++
          (if a.isRef then (match extMap with | some m => [m] | Option.none => []) else []) }
      .ok (if st.create_instances.length == batch_size then bulk_create_with_ref st else st)
    else if a.type == "update" then
      let st := { st with
        update_instances := st.update_instances ++ [o],
        update_ref_instances := st.update_ref_instances ++
          (if a.isRef then (match extMap with | some m => [m] | Option.none => []) else []) }
      .ok (if st.update_instances.length == batch_size then bulk_update_with_ref st else st)
    else if a.type == "delete" then
      let st := { st with delete_instances := st.delete_instances ++ [o] }
      .ok (if st.delete_instances.length == batch_size then bulk_delete st else st)
    else .ok st

/-- The inner loop of `BulkSyncPolicy.execute_actions` (policies.py
lines 182-193) over one row's actions, collecting the distinct action
types of the row and capturing the header from the first non-delete
action. -/
def processRowBulk (batch_size : Nat) :
    List PolicyAction → BulkState → List String → Except PyErr (BulkState × List String)
  | [], st, tys => .ok (st, tys)
  | a :: rest, st, tys => do
    let tys1 := if tys.contains a.type then tys else tys ++ [a.type]
    let st1 := if a.type != "delete" && st.header == [] then
        { st with header := a.fieldsOf.map Prod.fst }
      else st
    -- turn_off_auto_now: run-scoped date-field toggling, not part of the store state
    let st2 ← execute_row_action batch_size a st1
    processRowBulk batch_size rest st2 tys1

/-- `BulkSyncPolicy.execute_actions`. -/
def executeActionsBulk (batch_size : Nat) :
    List (List PolicyAction) → BulkState → Except PyErr BulkState
  | [], st => .ok st
  | row :: rest, st => do
    let (st1, tys) ← processRowBulk batch_size row st []
    executeActionsBulk batch_size rest
      { st1 with num_of_model_actions := st1.num_of_model_actions + tys.length }

/-- `BulkSyncPolicy.execute` (policies.py lines 149-180): run all rows,
then flush any instances still pending, in create → update → delete
order. -/
def BulkSyncPolicy.execute (batch_size : Nat) (actions : List (List PolicyAction))
    (db : DB) : Except PyErr BulkState := do
  let st1 ← executeActionsBulk batch_size actions ⟨db, [], [], [], [], [], [], 0, 0, []⟩
  .ok (bulk_delete (bulk_update_with_ref (bulk_create_with_ref st1)))

/-! ### Ordered policy (`OrderedSyncPolicy`, policies.py lines 402-427)

`OrderedSyncPolicy.execute` filters `self.actions` with
`lambda a: a.type == filter_by` and hands the (lazy) filter object to
`BasicSyncPolicy.execute(actions)`, whose `execute_actions` iterates it
as `for row_actions in actions: for action in row_actions: …`.  The
elements of `self.actions` are therefore inspected dynamically: reading
`.type` off an element raises `AttributeError` when the element is a
list (an action group), and iterating an element raises `TypeError` when
it is a bare action.  `PyObj` models that dynamic shape. -/

/-- An element of a policy's `actions` sequence as a dynamically typed
Python value: a bare action or a list (an action group). -/
inductive PyObj where
  | action (a : PolicyAction)
  | list (l : List PyObj)

/-- Evaluating `a.type` on a dynamic element: Python lists have no
attribute `type`. -/
def PyObj.getTypeAttr : PyObj → Except PyErr String
  | .action a => .ok a.type
  | .list _ => .error .attributeError

/-- The inner `for action in row_actions` loop of
`BasicSyncPolicy.execute_actions` (policies.py lines 103-112) executing
each element non-bulk; iterating a bare action raises `TypeError`.  An
exception carries the store state at the raise. -/
def runRowActions : List PyObj → DB → Except (PyErr × DB) DB
  | [], db => .ok db
  | x :: rest, db =>
    match x with
    | .action a =>
      match a.executeNB db with
      | .ok (_, db1) => runRowActions rest db1
      | .error e => .error (e, db)
    | .list _ => .error (.attributeError, db)  -- a list has no attribute `execute`

/-- One pass of `OrderedSyncPolicy.execute` for a given `filter_by`:
`execute_actions` pulls elements from the lazy `filter`, which evaluates
`a.type == filter_by` on each element of the underlying sequence, and
the elements that pass are iterated as action groups.  (The
skip-warning counters do not affect the store and are omitted.) -/
def orderedPass (filter_by : String) : List PyObj → DB → Except (PyErr × DB) DB
  | [], db => .ok db
  | x :: rest, db =>
    match x.getTypeAttr with
    | .error e => .error (e, db)
    | .ok ty =>
      if ty == filter_by then
        match x with
        | .action _ => .error (.typeError, db)  -- `for action in row_actions` on a non-iterable
        | .list row_actions =>
          match runRowActions row_actions db with
          | .ok db1 => orderedPass filter_by rest db1
          | .error ed => .error ed
      else orderedPass filter_by rest db

/-- `OrderedSyncPolicy.execute` (policies.py lines 423-427): one
filtered pass per action type, in create → update → delete order. -/
def OrderedSyncPolicy.execute (actions : List PyObj) (db : DB) :
    Except (PyErr × DB) DB := do
  let db1 ← orderedPass "create" actions db
  let db2 ← orderedPass "update" actions db1
  orderedPass "delete" actions db2

/-! ## Theorems -/

/-- The postfix loop succeeds exactly when the stack-depth simulation,
started at the current stack's length, ends at depth one. -/
theorem get_by_loop_isOk (fields : Attrs) :
    ∀ (toks : List String) (stack : List Q),
      ((get_by_loop fields toks stack).isOk = true ↔ depthRun toks stack.length = some 1) := by
  intro toks
  induction toks with
  | nil =>
    intro stack
    match stack with
    | [] => simp [get_by_loop, depthRun, Except.isOk, Except.toBool]
    | [q] => simp [get_by_loop, depthRun, Except.isOk, Except.toBool]
    | q₁ :: q₂ :: s => simp [get_by_loop, depthRun, Except.isOk, Except.toBool]
  | cons m rest ih =>
    intro stack
    cases hop : OPERATORS.contains m with
    | false =>
      simp only [get_by_loop, depthRun, hop, Bool.false_eq_true, if_false]
      simpa using ih (build_selector fields m :: stack)
    | true =>
      cases hnot : (m == "~") with
      | true =>
        match stack with
        | [] =>
          simp only [get_by_loop, depthRun, hop, hnot]
          simp [Except.isOk, Except.toBool]
        | q :: s =>
          simp only [get_by_loop, depthRun, hop, hnot]
          simpa using ih (Q.not q :: s)
      | false =>
        match stack with
        | [] =>
          simp only [get_by_loop, depthRun, hop, hnot]
          simp [Except.isOk, Except.toBool]
        | [q] =>
          simp only [get_by_loop, depthRun, hop, hnot]
          simp [Except.isOk, Except.toBool]
        | q₂ :: q₁ :: s =>
          cases hor : (m == "|") with
          | true =>
            simp only [get_by_loop, depthRun, hop, hnot, hor]
            simpa using ih (Q.or q₁ q₂ :: s)
          | false =>
            simp only [get_by_loop, depthRun, hop, hnot, hor]
            simpa using ih (Q.and q₁ q₂ :: s)


/-- C5: `ObjectSelector.get_by` (i) ANDs the listed fields' equality
predicates left to right when the match specification has no boolean
operator token, (ii) evaluates an operator-bearing specification as
postfix with binary operands popped in reverse order, so that
`["a","b","&","c","|"]` yields `(a AND b) OR c` and `["a","~"]` yields
`NOT a`, and (iii) with operators present it raises `ValueError` exactly
unless the stack simulation ends with exactly one predicate — i.e. it
fails whenever an operator lacks operands or more than one predicate
remains at the end. -/
theorem get_by_matches_spec :
    (∀ (m : String) (rest : List String) (fields : Attrs),
        (∀ t ∈ m :: rest, OPERATORS.contains t = false) →
        get_by (m :: rest) fields =
          .ok (rest.foldl (fun q t => Q.and q (build_selector fields t))
                (build_selector fields m)))
    ∧ (∀ (fields : Attrs),
        get_by ["a", "b", "&", "c", "|"] fields =
          .ok (.or (.and (build_selector fields "a") (build_selector fields "b"))
                (build_selector fields "c")))
    ∧ (∀ (fields : Attrs),
        get_by ["a", "~"] fields = .ok (.not (build_selector fields "a")))
    ∧ (∀ (match_on : List String) (fields : Attrs),
        match_on.all (fun t => !OPERATORS.contains t) = false →
        ((get_by match_on fields).isOk = true ↔ depthRun match_on 0 = some 1)) := by
  refine ⟨?_, ?_, ?_, ?_⟩
  · intro m rest fields h
    have hall : ((m :: rest).all (fun t => !OPERATORS.contains t)) = true := by
      rw [List.all_eq_true]
      intro t ht
      rw [h t ht]
      rfl
    unfold get_by
    rw [hall]
    rfl
  · intro fields
    rfl
  · intro fields
    rfl
  · intro match_on fields h
    unfold get_by
    rw [h]
    have h0 := get_by_loop_isOk fields match_on []
    simpa using h0

/-- Witness for C5 at concrete inputs: a two-field conjunction, and the
under-supplied specification `["a","&"]`, which indeed fails (its depth
simulation underflows). -/
theorem get_by_matches_spec_witness :
    get_by ["a", "b"] [("a", Val.str "1"), ("b", Val.str "2")] =
      .ok (.and (.eq "a" (Val.str "1")) (.eq "b" (Val.str "2")))
    ∧ (((get_by ["a", "&"] [("a", Val.str "1")]).isOk = true ↔
          depthRun ["a", "&"] 0 = some 1)
        ∧ depthRun ["a", "&"] 0 = Option.none) := by
  constructor
  · have := get_by_matches_spec.1 "a" ["b"] [("a", Val.str "1"), ("b", Val.str "2")]
      (by decide)
    simpa [build_selector, getattrD] using this
  · exact ⟨get_by_matches_spec.2.2.2 ["a", "&"] [("a", Val.str "1")] (by decide), by decide⟩

/-! ### Delete-if-only-reference (C1) -/

/-- The one-model fixture used by the concrete scenarios: a "person"
model with a single plain `name` field. -/
def personMeta : ModelMeta := ⟨"person", [("name", {})], [], fun _ => Option.none⟩

/-- A non-forced delete of John, as built by the factory for a row
matched on `name`. -/
def deleteJohnCtx : ActionCtx :=
  { meta := personMeta, match_on := ["name"], fields := [("name", .str "John")] }

/-- Record John (pk 1) referenced by two different external systems,
each through its own external key — the starting state of the factory
docstring's Example 1. -/
def dbTwoSystems : DB :=
  { objects := [⟨1, [("name", .str "John")]⟩],
    mappings := [⟨some 1, "system1", "key1", "person", some 1⟩,
                 ⟨some 2, "system2", "key2", "person", some 1⟩],
    related := [], uniqueFields := [], nextPk := 2, nextMapPk := 3 }

/-- C1: evaluating `DeleteIfOnlyReferenceModelAction.execute` at the
claim's scenario.  Although system2 still holds a mapping to John, the
non-forced delete issued by system1 **does** delete him: the mapping
lookup filters by `external_key="key1"`, so system2's row (key2) is
invisible to the check, the single visible mapping belongs to system1,
and the wrapped delete runs.  This contradicts the claim, the class's
own docstring, and the factory docstring's Example 1. -/
theorem deleteIfOnlyReference_deletes_despite_second_system :
    (dbTwoSystems.mappings.filter (fun m => m.external_system == "system2"
        && m.object_id == some 1)).length = 1
    ∧ DeleteIfOnlyReferenceModelAction.execute deleteJohnCtx "system1" "key1" false dbTwoSystems =
        .ok (some ⟨some 1, [("name", Val.str "John")]⟩,
             { dbTwoSystems with objects := [], mappings := [] }) := by
  constructor
  · rfl
  · rfl

/-! ### Action factory delete branches (C2, C10) -/

/-- C2 (counterexample): with delete requested, a mappable external key
and force=true, `ActionFactory.build` appends the **plain**
`DeleteModelAction` — not wrapped in `DeleteIfOnlyReference` — together
with the `DeleteExternalReference` action; no element of the returned
group is a `DeleteIfOnlyReference` wrapper. -/
theorem build_forced_mappable_delete_not_wrapped :
    ActionFactory.build (some "system1") false { delete := true, force := true } ["name"]
        (.str "key1") [("name", Val.str "x")] =
      [.deleteModel ["name"] [("name", Val.str "x")],
       .deleteExternalReference (some "system1") (.str "key1")]
    ∧ (ActionFactory.build (some "system1") false { delete := true, force := true } ["name"]
        (.str "key1") [("name", Val.str "x")]).all
        (fun a => match a with | .deleteIfOnlyReference _ _ _ => false | _ => true) = true := by
  constructor
  · decide
  · decide

/-- C2 (amended): for every build call with delete requested, a mappable
external key and force=true, the returned group is the plain (unwrapped)
delete action followed by the `DeleteExternalReference` mapping-cleanup
action; the `DeleteIfOnlyReference` wrap happens only for unforced
deletes. -/
theorem build_forced_mappable_delete (es : Option String) (fi : Bool)
    (sa : SyncActions) (match_on : List String) (key : Val) (fields : Attrs)
    (hd : sa.delete = true) (hf : sa.force = true) (hv : sa.valid = true)
    (hm : is_externally_mappable es key = true) :
    ActionFactory.build es fi sa match_on key fields =
      [.deleteModel match_on fields, .deleteExternalReference es key] := by
  have hc : sa.create = false := by
    cases hcreate : sa.create
    · rfl
    · rw [SyncActions.valid, hd, hcreate] at hv
      simp at hv
  have hu : sa.update = false := by
    cases hupdate : sa.update
    · rfl
    · rw [SyncActions.valid, hd, hupdate] at hv
      simp at hv
  have himp : sa.is_impotent = false := by
    rw [SyncActions.is_impotent, hd]
    simp
  simp [ActionFactory.build, himp, hd, hf, hm, hc, hu]

/-- Witness for the amended C2 at a concrete forced mappable delete. -/
theorem build_forced_mappable_delete_witness :
    ActionFactory.build (some "s") false { delete := true, force := true } ["a"]
        (.str "k") [("a", Val.str "1")] =
      [.deleteModel ["a"] [("a", Val.str "1")],
       .deleteExternalReference (some "s") (.str "k")] :=
  build_forced_mappable_delete (some "s") false _ ["a"] (.str "k") [("a", Val.str "1")]
    rfl rfl rfl (by decide)

/-- C10: with delete requested, an external key that is not externally
mappable, and force=false, the built group contains no delete-related
action at all — the delete branch contributes neither a plain delete,
nor a wrapped one, nor a mapping cleanup: the requested delete is
silently dropped. -/
theorem build_unforced_unmappable_delete_dropped (es : Option String) (fi : Bool)
    (sa : SyncActions) (match_on : List String) (key : Val) (fields : Attrs)
    (hd : sa.delete = true) (hf : sa.force = false)
    (hm : is_externally_mappable es key = false) :
    (ActionFactory.build es fi sa match_on key fields).filter
        (fun a => a.isDeleteRelated) = [] := by
  have himp : sa.is_impotent = false := by
    rw [SyncActions.is_impotent, hd]
    simp
  cases hc : sa.create <;> cases hu : sa.update <;>
    simp [ActionFactory.build, himp, hd, hf, hm, hc, hu, BuiltAction.isDeleteRelated]

/-- Witness for C10: no external system configured, unforced delete —
the returned group holds no delete-related action. -/
theorem build_unforced_unmappable_delete_dropped_witness :
    (ActionFactory.build Option.none false { delete := true } ["a"]
        (.str "k") [("a", Val.str "1")]).filter (fun a => a.isDeleteRelated) = [] :=
  build_unforced_unmappable_delete_dropped Option.none false _ ["a"] (.str "k")
    [("a", Val.str "1")] rfl rfl (by decide)

/-! ### Ordered policy (C8) and bulk policy (C9) -/

/-- The empty starting store. -/
def emptyDB : DB :=
  { objects := [], mappings := [], related := [], uniqueFields := [],
    nextPk := 1, nextMapPk := 1 }

/-- A create / delete action context for the record keyed "Ann". -/
def ctxAnn : ActionCtx :=
  { meta := personMeta, match_on := ["name"], fields := [("name", .str "Ann")] }

/-- C8: evaluating `OrderedSyncPolicy.execute` on a batch of two action
groups — a create for Ann and a forced delete for Ann — in either input
order.  The policy raises `AttributeError` before executing anything and
the store is untouched: `execute` filters the sequence of action
*groups* with `lambda a: a.type == filter_by`, but a group is a list and
has no `type` attribute (the rewritten `BasicSyncPolicy.execute_actions`
iterates groups, while `OrderedSyncPolicy` still filters flat actions as
in the pre-rewrite superclass).  The claim's create-then-delete ordering
never happens. -/
theorem orderedPolicy_raises_attributeError :
    OrderedSyncPolicy.execute
        [.list [.action (.createPlain ctxAnn false)],
         .list [.action (.deletePlain ctxAnn)]] emptyDB =
      .error (.attributeError, emptyDB)
    ∧ OrderedSyncPolicy.execute
        [.list [.action (.deletePlain ctxAnn)],
         .list [.action (.createPlain ctxAnn false)]] emptyDB =
      .error (.attributeError, emptyDB) := by
  constructor
  · rfl
  · rfl

/-- One create row for the bulk scenario. -/
def bulkCreateRow (name : String) : PolicyAction :=
  .createPlain { meta := personMeta, match_on := ["name"], fields := [("name", .str name)] } false

/-- Five create rows. -/
def bulkFiveRows : List (List PolicyAction) :=
  [[bulkCreateRow "r1"], [bulkCreateRow "r2"], [bulkCreateRow "r3"],
   [bulkCreateRow "r4"], [bulkCreateRow "r5"]]

/-- A flush cycle of the create buffer appends one create event carrying
the buffer's size. -/
theorem log_bulk_create_with_ref (st : BulkState) :
    (bulk_create_with_ref st).log = st.log ++ [.create st.create_instances.length] := by
  rcases h : st.db.bulkCreateRows st.create_instances with ⟨created, db1⟩
  simp [bulk_create_with_ref, h]

/-- A flush cycle of the update buffer appends one update event. -/
theorem log_bulk_update_with_ref (st : BulkState) :
    (bulk_update_with_ref st).log = st.log ++ [.update st.update_instances.length] := rfl

/-- A flush cycle of the delete buffer appends one delete event. -/
theorem log_bulk_delete (st : BulkState) :
    (bulk_delete st).log = st.log ++ [.delete st.delete_instances.length] := rfl

/-- C9: under `BulkSyncPolicy` with batch_size 2 and five create rows,
exactly three bulk-create flush cycles occur — two of size 2, triggered
when the create buffer's length equals the batch size, and one of size 1
at end of run — and five records exist afterward; moreover every
successful bulk run ends with the end-of-run flush cycles in create,
then update, then delete order. -/
theorem bulkPolicy_batch2_five_creates :
    ((BulkSyncPolicy.execute 2 bulkFiveRows emptyDB).map
        (fun st => (st.log, st.db.objects.length)))
      = .ok ([.create 2, .create 2, .create 1, .update 0, .delete 0], 5)
    ∧ (∀ (bs : Nat) (acts : List (List PolicyAction)) (db : DB) (st : BulkState),
        BulkSyncPolicy.execute bs acts db = .ok st →
        ∃ l n m k, st.log =
          l ++ [FlushEvent.create n, FlushEvent.update m, FlushEvent.delete k]) := by
  constructor
  · rfl
  · intro bs acts db st h
    unfold BulkSyncPolicy.execute at h
    cases hE : executeActionsBulk bs acts ⟨db, [], [], [], [], [], [], 0, 0, []⟩ with
    | error e =>
      rw [hE] at h
      simp [Bind.bind, Except.bind] at h
    | ok st1 =>
      rw [hE] at h
      simp only [Bind.bind, Except.bind, Except.ok.injEq] at h
      refine ⟨st1.log, st1.create_instances.length,
        (bulk_create_with_ref st1).update_instances.length,
        (bulk_update_with_ref (bulk_create_with_ref st1)).delete_instances.length, ?_⟩
      rw [← h, log_bulk_delete, log_bulk_update_with_ref, log_bulk_create_with_ref]
      simp

/-- Witness for C9's universally quantified conjunct at the empty
batch: the run succeeds and its log ends with create, update, delete
flush events in order. -/
theorem bulkPolicy_batch2_five_creates_witness :
    ∃ st, BulkSyncPolicy.execute 2 ([] : List (List PolicyAction)) emptyDB = .ok st ∧
      ∃ l n m k, st.log =
        l ++ [FlushEvent.create n, FlushEvent.update m, FlushEvent.delete k] := by
  refine ⟨_, rfl, ?_⟩
  exact bulkPolicy_batch2_five_creates.2 2 [] emptyDB _ rfl

/-- A computation that `isOk` is an `ok`. -/
theorem exists_ok_of_isOk {α : Type} {e : Except PyErr α} (h : e.isOk = true) :
    ∃ v, e = .ok v := by
  cases e with
  | ok v => exact ⟨v, rfl⟩
  | error e => simp [Except.isOk, Except.toBool] at h

/-- When relations are not resolved by external key (the default
configuration), the plain-attribute transformations never raise. -/
theorem plainTransform_noRel (ctx : ActionCtx) (hrel : ctx.rel_by_external_key = false)
    (db : DB) (a : String) (v : Val) :
    ∃ v', plainTransform ctx db a v = .ok v' := by
  apply exists_ok_of_isOk
  unfold plainTransform
  cases hf : ctx.meta.get_field a with
  | none => rfl
  | some fi =>
    cases hrm : fi.relatedModel with
    | none =>
      simp only [hrm]
      rfl
    | some rm =>
      have hmap : is_rel_model_mapped ctx rm = false := by
        simp [is_rel_model_mapped, hrel]
      simp only [hrm, hmap, Bool.and_false, Bool.false_eq_true, if_false]
      rfl

/-- One plain step, in the default configuration: it succeeds, buffers
no generic foreign key and leaves the instance's pk unchanged. -/
theorem uff_plain_step_noRel (ctx : ActionCtx) (hrel : ctx.rel_by_external_key = false)
    (db : DB) (force : Bool) (a : String) (v : Val) (acc : UffAcc) :
    ∃ acc', uff_plain_step ctx db force a v acc = .ok acc'
      ∧ acc'.gfks = acc.gfks ∧ acc'.obj.pk = acc.obj.pk := by
  unfold uff_plain_step
  by_cases hskip : (!force && !(getattrD acc.obj.attrs a Val.none == Val.none
      || getattrD acc.obj.attrs a Val.none == Val.str "")) = true
  · refine ⟨acc, ?_, rfl, rfl⟩
    rw [if_pos hskip]
  · obtain ⟨v', hv⟩ := plainTransform_noRel ctx hrel db a v
    refine ⟨⟨⟨acc.obj.pk, setattrV acc.obj.attrs a v'⟩, acc.refs, acc.gfks⟩, ?_, rfl, rfl⟩
    rw [if_neg hskip, hv]
    simp [Bind.bind, Except.bind, hrel]

/-- The first `update_from_fields` loop, in the default configuration:
it succeeds, buffers no generic foreign keys and preserves the pk. -/
theorem uff_phase1_noRel (ctx : ActionCtx) (hrel : ctx.rel_by_external_key = false)
    (db : DB) (force : Bool) :
    ∀ (l : List (String × Val)) (acc : UffAcc),
      ∃ acc', uff_phase1 ctx db force l acc = .ok acc'
        ∧ acc'.gfks = acc.gfks ∧ acc'.obj.pk = acc.obj.pk := by
  intro l
  induction l with
  | nil => intro acc; exact ⟨acc, rfl, rfl, rfl⟩
  | cons p rest ih =>
    intro acc
    obtain ⟨a, v⟩ := p
    cases hsplit : pySplitArrow a with
    | nil =>
      obtain ⟨acc1, h1, hg1, hp1⟩ := uff_plain_step_noRel ctx hrel db force a v acc
      obtain ⟨acc2, h2, hg2, hp2⟩ := ih acc1
      exact ⟨acc2, by simp [uff_phase1, hsplit, h1, h2, Bind.bind, Except.bind],
        by rw [hg2, hg1], by rw [hp2, hp1]⟩
    | cons p0 ps =>
      cases ps with
      | nil =>
        obtain ⟨acc1, h1, hg1, hp1⟩ := uff_plain_step_noRel ctx hrel db force a v acc
        obtain ⟨acc2, h2, hg2, hp2⟩ := ih acc1
        exact ⟨acc2, by simp [uff_phase1, hsplit, h1, h2, Bind.bind, Except.bind],
          by rw [hg2, hg1], by rw [hp2, hp1]⟩
      | cons p1 ps2 =>
        by_cases hv : (v != Val.str "") = true
        · obtain ⟨acc2, h2, hg2, hp2⟩ := ih { acc with refs := refInsert acc.refs p0 p1 v }
          exact ⟨acc2, by simp [uff_phase1, hsplit, hv, h2], hg2, hp2⟩
        · obtain ⟨acc1, h1, hg1, hp1⟩ := uff_plain_step_noRel ctx hrel db force a v acc
          obtain ⟨acc2, h2, hg2, hp2⟩ := ih acc1
          exact ⟨acc2, by simp [uff_phase1, hsplit, hv, h1, h2, Bind.bind, Except.bind],
            by rw [hg2, hg1], by rw [hp2, hp1]⟩

/-- A referential assignment never changes the instance's pk. -/
theorem uff_ref_step_pk (ctx : ActionCtx) (db : DB) (force : Bool) (a : String)
    (gb : List (String × Val)) (obj : Obj) :
    (uff_ref_step ctx db force a gb obj).pk = obj.pk := by
  unfold uff_ref_step
  (repeat' split) <;> rfl

/-- The referential loop never changes the instance's pk. -/
theorem uff_phase2_pk (ctx : ActionCtx) (db : DB) (force : Bool) :
    ∀ (refs : List (String × List (String × Val))) (obj : Obj),
      (uff_phase2 ctx db force refs obj).pk = obj.pk := by
  intro refs
  induction refs with
  | nil => intro obj; rfl
  | cons p rest ih =>
    intro obj
    obtain ⟨a, gb⟩ := p
    rw [uff_phase2, ih, uff_ref_step_pk]

/-- `update_from_fields`, in the default configuration
(`rel_by_external_key` off): it always succeeds and preserves the
instance's pk. -/
theorem update_from_fields_noRel (ctx : ActionCtx) (hrel : ctx.rel_by_external_key = false)
    (db : DB) (obj : Obj) (force : Bool) :
    ∃ obj', update_from_fields ctx db obj force = .ok obj' ∧ obj'.pk = obj.pk := by
  obtain ⟨acc', h1, hg, hp⟩ := uff_phase1_noRel ctx hrel db force ctx.fields ⟨obj, [], []⟩
  refine ⟨uff_phase2 ctx db force acc'.refs acc'.obj, ?_, ?_⟩
  · simp [update_from_fields, h1, Bind.bind, Except.bind, hg, uff_phase3]
  · rw [uff_phase2_pk]
    exact hp

/-- C4: re-running the same create row with an external key against the
same store is idempotent.  Starting from the empty store, the first
`CreateModelWithReferenceAction.execute` persists exactly one record and
exactly one `ExternalKeyMapping` row for (system, key, type); the second
run finds the mapping already linked, returns the linked record
unchanged without running the base create (`ranBaseCreate = false`), and
leaves the store exactly as it was. -/
theorem createWithReference_idempotent (ctx : ActionCtx) (s k : String)
    (hrel : ctx.rel_by_external_key = false)
    (hmo : (ctx.match_on != []) = true)
    (q : Q) (hq : get_by ctx.match_on ctx.fields = .ok q) :
    ∃ out1 out2,
      CreateModelWithReferenceAction.execute ctx s k false false emptyDB = .ok out1
      ∧ CreateModelWithReferenceAction.execute ctx s k false false out1.db = .ok out2
      ∧ out1.db.objects.length = 1
      ∧ (out1.db.mappings.filter (fun m => m.external_system == s
            && m.external_key == k && m.content_type == ctx.meta.name)).length = 1
      ∧ out2.db = out1.db
      ∧ out2.result = out1.result
      ∧ out2.ranBaseCreate = false := by
  obtain ⟨obj1, huff, hpk⟩ :=
    update_from_fields_noRel ctx hrel (⟨[], [], [], [], 1, 1⟩ : DB) ⟨Option.none, []⟩ true
  have hmget : get_or_init_ext_mapp s k ctx.meta.name false (⟨[], [], [], [], 1, 1⟩ : DB) =
      .ok ⟨Option.none, s, k, ctx.meta.name, Option.none⟩ := by
    simp [get_or_init_ext_mapp, DB.mappingGetSKC, getSingle]
  have hget : get_object ctx (⟨[], [], [], [], 1, 1⟩ : DB) = .error .doesNotExist := by
    simp [get_object, hq, Bind.bind, Except.bind, DB.modelGet, getSingle]
  have hsave : (⟨[], [], [], [], 1, 1⟩ : DB).save obj1 =
      .ok (⟨1, obj1.attrs⟩, ⟨[⟨1, obj1.attrs⟩], [], [], [], 2, 1⟩) := by
    simp [DB.save, DB.violatesUnique, hpk]
  have hbase : CreateModelAction.execute ctx false false (⟨[], [], [], [], 1, 1⟩ : DB) =
      .ok ⟨some ⟨some 1, obj1.attrs⟩, ⟨[⟨1, obj1.attrs⟩], [], [], [], 2, 1⟩, false⟩ := by
    simp [CreateModelAction.execute, hmo, hget, createFresh, huff, hsave, Row.toObj]
  have hmsave : (⟨[⟨1, obj1.attrs⟩], [], [], [], 2, 1⟩ : DB).mappingSave
      ⟨Option.none, s, k, ctx.meta.name, some 1⟩ =
      .ok (⟨some 1, s, k, ctx.meta.name, some 1⟩,
           ⟨[⟨1, obj1.attrs⟩], [⟨some 1, s, k, ctx.meta.name, some 1⟩], [], [], 2, 2⟩) := by
    simp [DB.mappingSave, DB.mappingViolatesUnique]
  have h1 : CreateModelWithReferenceAction.execute ctx s k false false
      (⟨[], [], [], [], 1, 1⟩ : DB) =
      .ok ⟨some ⟨some 1, obj1.attrs⟩,
           ⟨[⟨1, obj1.attrs⟩], [⟨some 1, s, k, ctx.meta.name, some 1⟩], [], [], 2, 2⟩,
           false, ⟨some 1, s, k, ctx.meta.name, some 1⟩, true⟩ := by
    simp [CreateModelWithReferenceAction.execute, hmget, Bind.bind, Except.bind,
      DB.content_object, hbase, pkTruthy, map_to_external_object, hmsave]
  have hmget2 : get_or_init_ext_mapp s k ctx.meta.name false
      (⟨[⟨1, obj1.attrs⟩], [⟨some 1, s, k, ctx.meta.name, some 1⟩], [], [], 2, 2⟩ : DB) =
      .ok ⟨some 1, s, k, ctx.meta.name, some 1⟩ := by
    simp [get_or_init_ext_mapp, DB.mappingGetSKC, getSingle]
  have h2 : CreateModelWithReferenceAction.execute ctx s k false false
      (⟨[⟨1, obj1.attrs⟩], [⟨some 1, s, k, ctx.meta.name, some 1⟩], [], [], 2, 2⟩ : DB) =
      .ok ⟨some ⟨some 1, obj1.attrs⟩,
           ⟨[⟨1, obj1.attrs⟩], [⟨some 1, s, k, ctx.meta.name, some 1⟩], [], [], 2, 2⟩,
           false, ⟨some 1, s, k, ctx.meta.name, some 1⟩, false⟩ := by
    simp [CreateModelWithReferenceAction.execute, hmget2, Bind.bind, Except.bind,
      DB.content_object, Row.toObj, pkTruthy]
  refine ⟨⟨some ⟨some 1, obj1.attrs⟩,
      ⟨[⟨1, obj1.attrs⟩], [⟨some 1, s, k, ctx.meta.name, some 1⟩], [], [], 2, 2⟩,
      false, ⟨some 1, s, k, ctx.meta.name, some 1⟩, true⟩,
    ⟨some ⟨some 1, obj1.attrs⟩,
      ⟨[⟨1, obj1.attrs⟩], [⟨some 1, s, k, ctx.meta.name, some 1⟩], [], [], 2, 2⟩,
      false, ⟨some 1, s, k, ctx.meta.name, some 1⟩, false⟩,
    h1, h2, rfl, ?_, rfl, rfl, rfl⟩
  simp

/-- Witness for C4 at the Ann fixture. -/
theorem createWithReference_idempotent_witness :
    ∃ out1 out2,
      CreateModelWithReferenceAction.execute ctxAnn "S1" "ext-1" false false emptyDB = .ok out1
      ∧ CreateModelWithReferenceAction.execute ctxAnn "S1" "ext-1" false false out1.db = .ok out2
      ∧ out1.db.objects.length = 1
      ∧ (out1.db.mappings.filter (fun m => m.external_system == "S1"
            && m.external_key == "ext-1" && m.content_type == ctxAnn.meta.name)).length = 1
      ∧ out2.db = out1.db
      ∧ out2.result = out1.result
      ∧ out2.ranBaseCreate = false :=
  createWithReference_idempotent ctxAnn "S1" "ext-1" rfl rfl
    (Q.eq "name" (Val.str "Ann")) rfl

/-- `Model.save` never changes the mapping table. -/
theorem save_mappings (db : DB) (o : Obj) (r : Row) (db' : DB)
    (h : db.save o = .ok (r, db')) : db'.mappings = db.mappings := by
  unfold DB.save at h
  by_cases hv : db.violatesUnique o = true
  · rw [if_pos hv] at h
    cases h
  · rw [if_neg hv] at h
    cases ho : o.pk with
    | some i =>
      rw [ho] at h
      cases h
      rfl
    | none =>
      rw [ho] at h
      cases h
      rfl

/-- Reference-aware update when neither the linked nor the matched
record resolves: the action returns `None` and the store is untouched. -/
theorem updateRef_neither (ctx : ActionCtx) (s k : String) (fu : Bool)
    (db : DB) (m : Mapping)
    (hmget : get_or_init_ext_mapp s k ctx.meta.name false db = .ok m)
    (hco : db.content_object ctx.meta.name m = Option.none)
    (hmatch : get_object ctx db = .error .doesNotExist) :
    UpdateModelWithReferenceAction.execute ctx s k fu false db = .ok (Option.none, db) := by
  simp [UpdateModelWithReferenceAction.execute, hmget, Bind.bind, Except.bind, hco, hmatch]

/-- Reference-aware update when the mapping-linked record and the
match-specification record both exist and differ: the matched record is
deleted from the store and the field updates are applied to the linked
record (the mapping's record is authoritative). -/
theorem updateRef_both_exist_differ (ctx : ActionCtx) (s k : String) (fu : Bool)
    (db : DB) (m : Mapping) (L M : Row)
    (hrel : ctx.rel_by_external_key = false)
    (hmget : get_or_init_ext_mapp s k ctx.meta.name false db = .ok m)
    (hco : db.content_object ctx.meta.name m = some L)
    (hmatch : get_object ctx db = .ok M)
    (hne : (M.pk != L.pk) = true)
    (hoid : m.object_id = some L.pk)
    (hu : db.uniqueFields = []) :
    ∃ L' db2,
      update_from_fields ctx (db.deleteRow ctx.meta.name M.pk) L.toObj fu = .ok L'
      ∧ UpdateModelWithReferenceAction.execute ctx s k fu false db =
          .ok (some ⟨some L.pk, L'.attrs⟩, db2)
      ∧ (∀ r ∈ db2.objects, r.pk ≠ M.pk)
      ∧ db2.mappings = (db.deleteRow ctx.meta.name M.pk).mappings := by
  obtain ⟨L', hL', hpkL⟩ :=
    update_from_fields_noRel ctx hrel (db.deleteRow ctx.meta.name M.pk) L.toObj fu
  have hpkL' : L'.pk = some L.pk := hpkL
  simp only [Row.toObj] at hL' 
  have hunique : (db.deleteRow ctx.meta.name M.pk).violatesUnique L' = false := by
    simp [DB.violatesUnique, DB.deleteRow, hu]
  have hsave : (db.deleteRow ctx.meta.name M.pk).save L' =
      .ok (⟨L.pk, L'.attrs⟩,
        { db.deleteRow ctx.meta.name M.pk with
          objects := (db.deleteRow ctx.meta.name M.pk).objects.map
            (fun r => if r.pk == L.pk then ⟨L.pk, L'.attrs⟩ else r) }) := by
    unfold DB.save
    rw [hunique]
    simp [hpkL']
  refine ⟨L',
    { db.deleteRow ctx.meta.name M.pk with
      objects := (db.deleteRow ctx.meta.name M.pk).objects.map
        (fun r => if r.pk == L.pk then ⟨L.pk, L'.attrs⟩ else r) },
    hL', ?_, ?_, ?_⟩
  · simp [UpdateModelWithReferenceAction.execute, hmget, Bind.bind, Except.bind,
      hco, hmatch, hne, hL', hsave, Row.toObj, hoid]
  · intro r hr
    simp only [DB.deleteRow, List.mem_map, List.mem_filter] at hr
    obtain ⟨r0, ⟨hr0mem, hr0ne⟩, hr0eq⟩ := hr
    by_cases hcase : (r0.pk == L.pk) = true
    · rw [if_pos hcase] at hr0eq
      rw [← hr0eq]
      intro hLM
      rw [← hLM] at hne
      simp at hne
    · rw [if_neg hcase] at hr0eq
      rw [← hr0eq]
      intro hc
      rw [hc] at hr0ne
      simp at hr0ne
  · rfl

/-- Reference-aware update when the mapping links no record but the
match specification finds one: the field updates are applied to the
matched record, and the mapping is then pointed at it and persisted. -/
theorem updateRef_linked_missing (ctx : ActionCtx) (s k : String) (fu : Bool)
    (db : DB) (M : Row)
    (hrel : ctx.rel_by_external_key = false)
    (hmget : get_or_init_ext_mapp s k ctx.meta.name false db =
      .ok ⟨Option.none, s, k, ctx.meta.name, Option.none⟩)
    (hmatch : get_object ctx db = .ok M)
    (hu : db.uniqueFields = [])
    (hnov : db.mappingViolatesUnique ⟨Option.none, s, k, ctx.meta.name, some M.pk⟩ = false) :
    ∃ M' db2,
      update_from_fields ctx db M.toObj fu = .ok M'
      ∧ UpdateModelWithReferenceAction.execute ctx s k fu false db =
          .ok (some ⟨some M.pk, M'.attrs⟩, db2)
      ∧ db2.objects = db.objects.map (fun r => if r.pk == M.pk then ⟨M.pk, M'.attrs⟩ else r)
      ∧ db2.mappings = db.mappings ++ [⟨some db.nextMapPk, s, k, ctx.meta.name, some M.pk⟩] := by
  obtain ⟨M', hM', hpkM⟩ := update_from_fields_noRel ctx hrel db M.toObj fu
  have hpkM' : M'.pk = some M.pk := hpkM
  simp only [Row.toObj] at hM'
  have hunique : db.violatesUnique M' = false := by
    simp [DB.violatesUnique, hu]
  have hsave : db.save M' = .ok (⟨M.pk, M'.attrs⟩,
      { db with objects := db.objects.map (fun r => if r.pk == M.pk then ⟨M.pk, M'.attrs⟩ else r) }) := by
    unfold DB.save
    rw [hunique]
    simp [hpkM']
  have hnov2 : DB.mappingViolatesUnique
      { db with objects := db.objects.map (fun r => if r.pk = M.pk then ⟨M.pk, M'.attrs⟩ else r) }
      ⟨Option.none, s, k, ctx.meta.name, some M.pk⟩ = false := hnov
  have hmsv : DB.mappingSave
      { db with objects := db.objects.map (fun r => if r.pk = M.pk then ⟨M.pk, M'.attrs⟩ else r) }
      ⟨Option.none, s, k, ctx.meta.name, some M.pk⟩ =
      .ok (⟨some db.nextMapPk, s, k, ctx.meta.name, some M.pk⟩,
        { db with
          objects := db.objects.map (fun r => if r.pk = M.pk then ⟨M.pk, M'.attrs⟩ else r),
          mappings := db.mappings ++ [⟨some db.nextMapPk, s, k, ctx.meta.name, some M.pk⟩],
          nextMapPk := db.nextMapPk + 1 }) := by
    unfold DB.mappingSave
    rw [hnov2]
    simp
  refine ⟨M',
    { db with
      objects := db.objects.map (fun r => if r.pk == M.pk then ⟨M.pk, M'.attrs⟩ else r),
      mappings := db.mappings ++ [⟨some db.nextMapPk, s, k, ctx.meta.name, some M.pk⟩],
      nextMapPk := db.nextMapPk + 1 },
    hM', ?_, rfl, rfl⟩
  simp [UpdateModelWithReferenceAction.execute, hmget, Bind.bind, Except.bind,
    DB.content_object, hmatch, hM', hsave, hmsv, Row.toObj, map_to_external_object]

/-- C3: `UpdateModelWithReferenceAction.execute` (i) deletes the matched
record when both the mapping-linked record and the matched record exist
and differ, applying the field updates to the linked record, (ii)
applies the field updates to the matched record when no record is
linked, and (iii) returns `None` without mutating anything when neither
record is resolvable. -/
theorem updateWithReference_matches_spec :
    (∀ (ctx : ActionCtx) (s k : String) (fu : Bool) (db : DB) (m : Mapping) (L M : Row),
        ctx.rel_by_external_key = false →
        get_or_init_ext_mapp s k ctx.meta.name false db = .ok m →
        db.content_object ctx.meta.name m = some L →
        get_object ctx db = .ok M →
        (M.pk != L.pk) = true →
        m.object_id = some L.pk →
        db.uniqueFields = [] →
        ∃ L' db2,
          update_from_fields ctx (db.deleteRow ctx.meta.name M.pk) L.toObj fu = .ok L'
          ∧ UpdateModelWithReferenceAction.execute ctx s k fu false db =
              .ok (some ⟨some L.pk, L'.attrs⟩, db2)
          ∧ (∀ r ∈ db2.objects, r.pk ≠ M.pk)
          ∧ db2.mappings = (db.deleteRow ctx.meta.name M.pk).mappings)
    ∧ (∀ (ctx : ActionCtx) (s k : String) (fu : Bool) (db : DB) (M : Row),
        ctx.rel_by_external_key = false →
        get_or_init_ext_mapp s k ctx.meta.name false db =
          .ok ⟨Option.none, s, k, ctx.meta.name, Option.none⟩ →
        get_object ctx db = .ok M →
        db.uniqueFields = [] →
        db.mappingViolatesUnique ⟨Option.none, s, k, ctx.meta.name, some M.pk⟩ = false →
        ∃ M' db2,
          update_from_fields ctx db M.toObj fu = .ok M'
          ∧ UpdateModelWithReferenceAction.execute ctx s k fu false db =
              .ok (some ⟨some M.pk, M'.attrs⟩, db2)
          ∧ db2.objects = db.objects.map (fun r => if r.pk == M.pk then ⟨M.pk, M'.attrs⟩ else r)
          ∧ db2.mappings = db.mappings ++ [⟨some db.nextMapPk, s, k, ctx.meta.name, some M.pk⟩])
    ∧ (∀ (ctx : ActionCtx) (s k : String) (fu : Bool) (db : DB) (m : Mapping),
        get_or_init_ext_mapp s k ctx.meta.name false db = .ok m →
        db.content_object ctx.meta.name m = Option.none →
        get_object ctx db = .error .doesNotExist →
        UpdateModelWithReferenceAction.execute ctx s k fu false db = .ok (Option.none, db)) :=
  ⟨fun ctx s k fu db m L M hrel hmget hco hmatch hne hoid hu =>
      updateRef_both_exist_differ ctx s k fu db m L M hrel hmget hco hmatch hne hoid hu,
   fun ctx s k fu db M hrel hmget hmatch hu hnov =>
      updateRef_linked_missing ctx s k fu db M hrel hmget hmatch hu hnov,
   fun ctx s k fu db m hmget hco hmatch =>
      updateRef_neither ctx s k fu db m hmget hco hmatch⟩

/-- Update action context matching on `name = "Bob"`. -/
def ctxBob : ActionCtx :=
  { meta := personMeta, match_on := ["name"], fields := [("name", .str "Bob")] }

/-- Store for the both-exist-and-differ scenario: linked record Ann
(pk 1, held by the mapping) and matched record Bob (pk 2). -/
def dbC3a : DB :=
  { objects := [⟨1, [("name", .str "Ann")]⟩, ⟨2, [("name", .str "Bob")]⟩],
    mappings := [⟨some 1, "S1", "k1", "person", some 1⟩],
    related := [], uniqueFields := [], nextPk := 3, nextMapPk := 2 }

/-- Store for the linked-missing scenario: only the matched Bob row. -/
def dbC3b : DB :=
  { objects := [⟨2, [("name", .str "Bob")]⟩], mappings := [],
    related := [], uniqueFields := [], nextPk := 3, nextMapPk := 1 }

/-- Witness for C3 at concrete stores: the matched Bob row is deleted
and Ann updated when both exist; Bob is updated and the mapping
persisted when nothing is linked; the empty store yields `None`. -/
theorem updateWithReference_matches_spec_witness :
    (∃ L' db2,
      update_from_fields ctxBob (dbC3a.deleteRow ctxBob.meta.name 2)
          (⟨1, [("name", Val.str "Ann")]⟩ : Row).toObj false = .ok L'
      ∧ UpdateModelWithReferenceAction.execute ctxBob "S1" "k1" false false dbC3a =
          .ok (some ⟨some 1, L'.attrs⟩, db2)
      ∧ (∀ r ∈ db2.objects, r.pk ≠ 2)
      ∧ db2.mappings = (dbC3a.deleteRow ctxBob.meta.name 2).mappings)
    ∧ (∃ M' db2,
      update_from_fields ctxBob dbC3b (⟨2, [("name", Val.str "Bob")]⟩ : Row).toObj false = .ok M'
      ∧ UpdateModelWithReferenceAction.execute ctxBob "S1" "k1" false false dbC3b =
          .ok (some ⟨some 2, M'.attrs⟩, db2)
      ∧ db2.objects = dbC3b.objects.map (fun r => if r.pk == 2 then ⟨2, M'.attrs⟩ else r)
      ∧ db2.mappings = dbC3b.mappings ++ [⟨some 1, "S1", "k1", ctxBob.meta.name, some 2⟩])
    ∧ UpdateModelWithReferenceAction.execute ctxBob "S1" "k1" false false emptyDB =
        .ok (Option.none, emptyDB) :=
  ⟨updateWithReference_matches_spec.1 ctxBob "S1" "k1" false dbC3a
      ⟨some 1, "S1", "k1", "person", some 1⟩ ⟨1, [("name", .str "Ann")]⟩
      ⟨2, [("name", .str "Bob")]⟩ rfl rfl rfl rfl rfl rfl rfl,
   updateWithReference_matches_spec.2.1 ctxBob "S1" "k1" false dbC3b
      ⟨2, [("name", .str "Bob")]⟩ rfl rfl rfl rfl rfl,
   updateWithReference_matches_spec.2.2 ctxBob "S1" "k1" false emptyDB
      ⟨Option.none, "S1", "k1", "person", Option.none⟩ rfl rfl rfl⟩

/-- A `get` either raises the model's not-found error or
`MultipleObjectsReturned`. -/
theorem getSingle_err {α : Type} (nf : PyErr) (l : List α) (e : PyErr)
    (h : getSingle nf l = .error e) : e = nf ∨ e = .multipleReturned := by
  match l with
  | [] => cases h; exact Or.inl rfl
  | [x] => cases h
  | x :: y :: rest => cases h; exact Or.inr rfl

/-- `Except.map` introduces no errors of its own. -/
theorem map_err {α β : Type} (f : α → β) (x : Except PyErr α) (e : PyErr)
    (h : x.map f = .error e) : x = .error e := by
  cases x with
  | ok v => simp [Except.map] at h
  | error e0 => simp [Except.map] at h; rw [h]

/-- External-key resolution raises only
`ExternalKeyMapping.DoesNotExist` or `MultipleObjectsReturned`. -/
theorem get_object_id_err (ctx : ActionCtx) (db : DB) (v : Val) (ct : String) (e : PyErr)
    (h : get_object_id_by_external_key ctx db v ct = .error e) :
    e = .mappingDoesNotExist ∨ e = .multipleReturned := by
  unfold get_object_id_by_external_key DB.mappingGetSKC at h
  cases hs : getSingle PyErr.mappingDoesNotExist (db.mappings.filter (fun m =>
      ctx.external_system == some m.external_system && v == Val.str m.external_key
        && m.content_type == ct)) with
  | error e0 =>
    rw [hs] at h
    simp only [Bind.bind, Except.bind] at h
    cases h
    exact getSingle_err _ _ _ hs
  | ok m =>
    rw [hs] at h
    simp only [Bind.bind, Except.bind] at h
    cases ho : m.object_id with
    | some i => rw [ho] at h; cases h
    | none => rw [ho] at h; cases h

/-- The field-transformation core raises only mapping-lookup errors. -/
theorem plainCore_err (ctx : ActionCtx) (db : DB) (fi : FieldInfo) (v1 : Val) (e : PyErr)
    (h : (match fi.relatedModel with
          | some rm =>
            if v1.truthy && is_rel_model_mapped ctx rm then
              (get_object_id_by_external_key ctx db v1 rm).map (jsonTransform ctx.meta fi)
            else .ok (jsonTransform ctx.meta fi v1)
          | Option.none => .ok (jsonTransform ctx.meta fi v1)) = .error e) :
    e = .mappingDoesNotExist ∨ e = .multipleReturned := by
  cases hrm : fi.relatedModel with
  | none => rw [hrm] at h; cases h
  | some rm =>
    rw [hrm] at h
    have h2 : (if v1.truthy && is_rel_model_mapped ctx rm then
        (get_object_id_by_external_key ctx db v1 rm).map (jsonTransform ctx.meta fi)
      else (.ok (jsonTransform ctx.meta fi v1) : Except PyErr Val)) = .error e := h
    by_cases hc : (v1.truthy && is_rel_model_mapped ctx rm) = true
    · rw [if_pos hc] at h2
      exact get_object_id_err _ _ _ _ _ (map_err _ _ _ h2)
    · rw [if_neg hc] at h2
      cases h2

/-- The plain-attribute transformations raise only mapping-lookup
errors. -/
theorem plainTransform_err (ctx : ActionCtx) (db : DB) (a : String) (v : Val) (e : PyErr)
    (h : plainTransform ctx db a v = .error e) :
    e = .mappingDoesNotExist ∨ e = .multipleReturned := by
  unfold plainTransform at h
  cases hf : ctx.meta.get_field a with
  | none => rw [hf] at h; cases h
  | some fi =>
    rw [hf] at h
    exact plainCore_err ctx db fi
      (if fi.isNull && v == Val.str "" then Val.none else v) e h

/-- With no generic foreign keys on the model, one plain step raises
only mapping-lookup errors and buffers nothing for the generic-FK
loop. -/
theorem uff_plain_step_gfks (ctx : ActionCtx) (hg : ctx.meta.genericFks = [])
    (db : DB) (force : Bool) (a : String) (v : Val) (acc : UffAcc) :
    (∀ e, uff_plain_step ctx db force a v acc = .error e →
        e = .mappingDoesNotExist ∨ e = .multipleReturned)
    ∧ (∀ acc', uff_plain_step ctx db force a v acc = .ok acc' → acc'.gfks = acc.gfks) := by
  unfold uff_plain_step
  by_cases hskip : (!force && !(getattrD acc.obj.attrs a Val.none == Val.none
      || getattrD acc.obj.attrs a Val.none == Val.str "")) = true
  · rw [if_pos hskip]
    refine ⟨fun e he => ?_, fun acc' h => ?_⟩
    · cases he
    · cases h
      rfl
  · rw [if_neg hskip]
    cases hp : plainTransform ctx db a v with
    | error e0 =>
      refine ⟨fun e he => ?_, fun acc' h => ?_⟩
      · simp only [hp, Bind.bind, Except.bind] at he
        cases he
        exact plainTransform_err _ _ _ _ _ hp
      · simp only [hp, Bind.bind, Except.bind] at h
        cases h
    | ok v' =>
      refine ⟨fun e he => ?_, fun acc' h => ?_⟩
      · simp only [hp, Bind.bind, Except.bind] at he
        cases he
      · simp only [hp, Bind.bind, Except.bind] at h
        cases h
        simp [hg]

/-- With no generic foreign keys, the first `update_from_fields` loop
raises only mapping-lookup errors and leaves the generic-FK buffer
untouched. -/
theorem uff_phase1_gfks (ctx : ActionCtx) (hg : ctx.meta.genericFks = [])
    (db : DB) (force : Bool) :
    ∀ (l : List (String × Val)) (acc : UffAcc),
      (∀ e, uff_phase1 ctx db force l acc = .error e →
          e = .mappingDoesNotExist ∨ e = .multipleReturned)
      ∧ (∀ acc', uff_phase1 ctx db force l acc = .ok acc' → acc'.gfks = acc.gfks) := by
  intro l
  induction l with
  | nil =>
    intro acc
    refine ⟨fun e he => ?_, fun acc' h => ?_⟩
    · cases he
    · cases h
      rfl
  | cons p rest ih =>
    intro acc
    obtain ⟨a, v⟩ := p
    have step : ∀ (acc0 : UffAcc),
        (∀ e, (do
            let acc1 ← uff_plain_step ctx db force a v acc0
            uff_phase1 ctx db force rest acc1) = .error e →
          e = .mappingDoesNotExist ∨ e = .multipleReturned)
        ∧ (∀ acc', (do
            let acc1 ← uff_plain_step ctx db force a v acc0
            uff_phase1 ctx db force rest acc1) = .ok acc' → acc'.gfks = acc0.gfks) := by
      intro acc0
      cases hs : uff_plain_step ctx db force a v acc0 with
      | error e0 =>
        refine ⟨fun e he => ?_, fun acc' h => ?_⟩
        · simp only [hs, Bind.bind, Except.bind] at he
          cases he
          exact (uff_plain_step_gfks ctx hg db force a v acc0).1 e0 hs
        · simp only [hs, Bind.bind, Except.bind] at h
          cases h
      | ok acc1 =>
        refine ⟨fun e he => ?_, fun acc' h => ?_⟩
        · simp only [hs, Bind.bind, Except.bind] at he
          exact (ih acc1).1 e he
        · simp only [hs, Bind.bind, Except.bind] at h
          rw [(ih acc1).2 acc' h]
          exact (uff_plain_step_gfks ctx hg db force a v acc0).2 acc1 hs
    cases hsplit : pySplitArrow a with
    | nil =>
      refine ⟨fun e he => ?_, fun acc' h => ?_⟩
      · rw [uff_phase1, hsplit] at he
        exact (step acc).1 e he
      · rw [uff_phase1, hsplit] at h
        exact (step acc).2 acc' h
    | cons p0 ps =>
      cases ps with
      | nil =>
        refine ⟨fun e he => ?_, fun acc' h => ?_⟩
        · rw [uff_phase1, hsplit] at he
          exact (step acc).1 e he
        · rw [uff_phase1, hsplit] at h
          exact (step acc).2 acc' h
      | cons p1 ps2 =>
        have heq : uff_phase1 ctx db force ((a, v) :: rest) acc =
            if v != Val.str "" then
              uff_phase1 ctx db force rest { acc with refs := refInsert acc.refs p0 p1 v }
            else
              Bind.bind (uff_plain_step ctx db force a v acc)
                (fun acc1 => uff_phase1 ctx db force rest acc1) := by
          rw [uff_phase1, hsplit]
        by_cases hv : (v != Val.str "") = true
        · refine ⟨fun e he => ?_, fun acc' h => ?_⟩
          · rw [heq, if_pos hv] at he
            exact (ih { acc with refs := refInsert acc.refs p0 p1 v }).1 e he
          · rw [heq, if_pos hv] at h
            exact (ih { acc with refs := refInsert acc.refs p0 p1 v }).2 acc' h
        · refine ⟨fun e he => ?_, fun acc' h => ?_⟩
          · rw [heq, if_neg hv] at he
            exact (step acc).1 e he
          · rw [heq, if_neg hv] at h
            exact (step acc).2 acc' h

/-- With no generic foreign keys on the model, `update_from_fields`
raises only `ExternalKeyMapping.DoesNotExist` or
`MultipleObjectsReturned` — exactly the exceptions
`UpdateModelAction.execute` catches. -/
theorem update_from_fields_err (ctx : ActionCtx) (hg : ctx.meta.genericFks = [])
    (db : DB) (obj : Obj) (force : Bool) (e : PyErr)
    (h : update_from_fields ctx db obj force = .error e) :
    e = .mappingDoesNotExist ∨ e = .multipleReturned := by
  unfold update_from_fields at h
  cases hp : uff_phase1 ctx db force ctx.fields ⟨obj, [], []⟩ with
  | error e0 =>
    simp only [hp, Bind.bind, Except.bind] at h
    cases h
    exact (uff_phase1_gfks ctx hg db force ctx.fields ⟨obj, [], []⟩).1 _ hp
  | ok acc' =>
    have hgf : acc'.gfks = [] :=
      (uff_phase1_gfks ctx hg db force ctx.fields ⟨obj, [], []⟩).2 acc' hp
    simp only [hp, Bind.bind, Except.bind, hgf, uff_phase3] at h
    cases h

/-- `Model.save` succeeds when no uniqueness constraint is violated. -/
theorem save_ok_of_not_violates (db : DB) (o : Obj)
    (h : db.violatesUnique o = false) :
    ∃ r2 db2, db.save o = .ok (r2, db2) := by
  unfold DB.save
  rw [h]
  simp only [Bool.false_eq_true, if_false]
  cases ho : o.pk with
  | some i => exact ⟨_, _, rfl⟩
  | none => exact ⟨_, _, rfl⟩

/-- C7: `UpdateModelAction.execute` never raises, and returns `None`
exactly in its failure cases — no record matches the selector, the
referenced external-key mapping lookup fails during field application
(missing or duplicated), or persisting violates a uniqueness constraint
(`IntegrityError`); in every other case it returns the updated record.
(Scope: a model without generic foreign keys, whose selector builds; the
multiple-match case is the `modelGet` error branch.) -/
theorem updateModel_error_handling (ctx : ActionCtx) (fu : Bool) (db : DB)
    (hg : ctx.meta.genericFks = [])
    (q : Q) (hq : get_by ctx.match_on ctx.fields = .ok q) :
    (UpdateModelAction.execute ctx fu false db).isOk = true
    ∧ (UpdateModelAction.execute ctx fu false db = .ok (Option.none, db) ↔
        ((∃ e, db.modelGet q = .error e)
          ∨ (∃ r e, db.modelGet q = .ok r
              ∧ update_from_fields ctx db r.toObj fu = .error e)
          ∨ (∃ r obj', db.modelGet q = .ok r
              ∧ update_from_fields ctx db r.toObj fu = .ok obj'
              ∧ db.violatesUnique obj' = true)))
    ∧ (∀ (r : Row) (obj' : Obj) (r2 : Row) (db2 : DB), db.modelGet q = .ok r →
        update_from_fields ctx db r.toObj fu = .ok obj' →
        db.save obj' = .ok (r2, db2) →
        UpdateModelAction.execute ctx fu false db = .ok (some r2.toObj, db2)) := by
  have hgo : get_object ctx db = db.modelGet q := by
    simp [get_object, hq, Bind.bind, Except.bind]
  cases hmg : db.modelGet q with
  | error e =>
    have hginner : getSingle PyErr.doesNotExist
        (db.objects.filter (fun r => q.eval r.attrs)) = .error e := hmg
    have he := getSingle_err PyErr.doesNotExist
      (db.objects.filter (fun r => q.eval r.attrs)) e hginner
    have hexec : UpdateModelAction.execute ctx fu false db = .ok (Option.none, db) := by
      unfold UpdateModelAction.execute UpdateModelAction.tryBody
      rw [hgo, hmg]
      rcases he with he | he <;> subst he <;> rfl
    refine ⟨by rw [hexec]; rfl, ?_, ?_⟩
    · exact ⟨fun _ => Or.inl ⟨e, rfl⟩, fun _ => hexec⟩
    · intro r obj' r2 db2 h1 h2 h3
      cases h1
  | ok r =>
    cases huff : update_from_fields ctx db r.toObj fu with
    | error e =>
      have he := update_from_fields_err ctx hg db r.toObj fu e huff
      have hexec : UpdateModelAction.execute ctx fu false db = .ok (Option.none, db) := by
        unfold UpdateModelAction.execute UpdateModelAction.tryBody
        rw [hgo, hmg]
        simp only [Bind.bind, Except.bind]
        rw [huff]
        rcases he with he | he <;> subst he <;> rfl
      refine ⟨by rw [hexec]; rfl, ?_, ?_⟩
      · exact ⟨fun _ => Or.inr (Or.inl ⟨r, e, rfl, huff⟩), fun _ => hexec⟩
      · intro r' obj' r2 db2 h1 h2 h3
        cases h1
        rw [huff] at h2
        cases h2
    | ok obj' =>
      by_cases hviol : db.violatesUnique obj' = true
      · have hsv : db.save obj' = .error .integrityError := by
          unfold DB.save
          rw [if_pos hviol]
        have hexec : UpdateModelAction.execute ctx fu false db = .ok (Option.none, db) := by
          unfold UpdateModelAction.execute UpdateModelAction.tryBody
          rw [hgo, hmg]
          simp only [Bind.bind, Except.bind]
          rw [huff]
          simp only [Bind.bind, Except.bind, Bool.false_eq_true, if_false]
          rw [hsv]
        refine ⟨by rw [hexec]; rfl, ?_, ?_⟩
        · exact ⟨fun _ => Or.inr (Or.inr ⟨r, obj', rfl, huff, hviol⟩), fun _ => hexec⟩
        · intro r' o2 r2 db2 h1 h2 h3
          cases h1
          rw [huff] at h2
          cases h2
          rw [hsv] at h3
          cases h3
      · have hviol' : db.violatesUnique obj' = false := by
          simpa using hviol
        obtain ⟨r2, db2, hsv⟩ := save_ok_of_not_violates db obj' hviol'
        have hexec : UpdateModelAction.execute ctx fu false db =
            .ok (some r2.toObj, db2) := by
          unfold UpdateModelAction.execute UpdateModelAction.tryBody
          rw [hgo, hmg]
          simp only [Bind.bind, Except.bind]
          rw [huff]
          simp only [Bind.bind, Except.bind, Bool.false_eq_true, if_false]
          rw [hsv]
        refine ⟨by rw [hexec]; rfl, ?_, ?_⟩
        · constructor
          · intro hnone
            rw [hexec] at hnone
            cases hnone
          · intro hfail
            rcases hfail with ⟨e, hf⟩ | ⟨r', e, hf1, hf2⟩ | ⟨r', o2, hf1, hf2, hf3⟩
            · cases hf
            · cases hf1
              rw [huff] at hf2
              cases hf2
            · cases hf1
              rw [huff] at hf2
              cases hf2
              rw [hviol'] at hf3
              cases hf3
        · intro r' o2 r2' db2' h1 h2 h3
          cases h1
          rw [huff] at h2
          cases h2
          rw [hsv] at h3
          cases h3
          exact hexec

/-- Witness for C7: on the empty store the update runs without raising
and degrades to a `None` return, via the no-match failure case. -/
theorem updateModel_error_handling_witness :
    (UpdateModelAction.execute ctxAnn false false emptyDB).isOk = true
    ∧ UpdateModelAction.execute ctxAnn false false emptyDB = .ok (Option.none, emptyDB) := by
  have h := updateModel_error_handling ctxAnn false emptyDB rfl
      (Q.eq "name" (Val.str "Ann")) rfl
  exact ⟨h.1, h.2.1.mpr (Or.inl ⟨PyErr.doesNotExist, rfl⟩)⟩

theorem find?_setattr_self (l : Attrs) (k : String) (v : Val)
    (h : l.any (fun p => p.1 == k) = true) :
    (l.map (fun p => if p.1 == k then (k, v) else p)).find?
        (fun p => p.1 == k) = some (k, v) := by
  induction l with
  | nil => simp at h
  | cons p rest ih =>
    simp only [List.map_cons]
    cases hp : (p.1 == k) with
    | true =>
      rw [if_pos rfl, List.find?_cons_of_pos]
      simp
    | false =>
      rw [if_neg (by simp), List.find?_cons_of_neg, ih]
      · simpa [hp] using h
      · simp [hp]

theorem find?_append_single (l : Attrs) (k : String) (v : Val)
    (h : l.any (fun p => p.1 == k) = false) :
    (l ++ [(k, v)]).find? (fun p => p.1 == k) = some (k, v) := by
  induction l with
  | nil => simp
  | cons p rest ih =>
    simp only [List.any_cons, Bool.or_eq_false_iff] at h
    simp only [List.cons_append]
    rw [List.find?_cons_of_neg, ih h.2]
    simp [h.1]

theorem find?_setattr_ne (l : Attrs) (k x : String) (v : Val)
    (hkx : (k == x) = false) :
    (l.map (fun p => if p.1 == k then (k, v) else p)).find? (fun p => p.1 == x)
      = l.find? (fun p => p.1 == x) := by
  induction l with
  | nil => rfl
  | cons p rest ih =>
    simp only [List.map_cons]
    cases hp : (p.1 == k) with
    | true =>
      have hpx : (p.1 == x) = false := by
        have hpk : p.1 = k := by simpa using hp
        rw [hpk]; exact hkx
      rw [if_pos rfl, List.find?_cons_of_neg, List.find?_cons_of_neg, ih]
        <;> simp [hpx, hkx]
    | false =>
      rw [if_neg (by simp)]
      cases hpx : (p.1 == x) with
      | true =>
        rw [List.find?_cons_of_pos, List.find?_cons_of_pos] <;> simp [hpx]
      | false =>
        rw [List.find?_cons_of_neg, List.find?_cons_of_neg, ih] <;> simp [hpx]

theorem find?_append_ne (l : Attrs) (k x : String) (v : Val)
    (hkx : (k == x) = false) :
    (l ++ [(k, v)]).find? (fun p => p.1 == x) = l.find? (fun p => p.1 == x) := by
  induction l with
  | nil =>
    show List.find? _ [(k, v)] = _
    rw [List.find?_cons_of_neg]
    simp [hkx]
  | cons p rest ih =>
    simp only [List.cons_append]
    cases hpx : (p.1 == x) with
    | true => rw [List.find?_cons_of_pos, List.find?_cons_of_pos] <;> simp [hpx]
    | false => rw [List.find?_cons_of_neg, List.find?_cons_of_neg, ih] <;> simp [hpx]

/-- `getattr` after `setattr` at the written key reads the new value. -/
theorem getattrD_setattrV_self (l : Attrs) (k : String) (v d : Val) :
    getattrD (setattrV l k v) k d = v := by
  unfold setattrV getattrD
  by_cases ha : l.any (fun p => p.1 == k) = true
  · rw [if_pos ha, find?_setattr_self l k v ha]
  · have ha' : l.any (fun p => p.1 == k) = false := by
      cases hx : l.any (fun p => p.1 == k) with
      | true => exact absurd hx ha
      | false => rfl
    rw [if_neg ha, find?_append_single l k v ha']

/-- `getattr` after `setattr` at a different key is unchanged. -/
theorem getattrD_setattrV_ne (l : Attrs) (k x : String) (v d : Val)
    (h : (x == k) = false) :
    getattrD (setattrV l k v) x d = getattrD l x d := by
  have hkx : (k == x) = false := by
    simp only [beq_eq_false_iff_ne] at h ⊢
    exact fun e => h e.symm
  unfold setattrV getattrD
  by_cases ha : l.any (fun p => p.1 == k) = true
  · rw [if_pos ha, find?_setattr_ne l k x v hkx]
  · rw [if_neg ha, find?_append_ne l k x v hkx]

/-- A plain step never touches attributes other than its own key. -/
theorem uff_plain_step_lookup_ne (ctx : ActionCtx) (db : DB) (force : Bool)
    (k : String) (u : Val) (acc acc' : UffAcc) (x : String)
    (h : uff_plain_step ctx db force k u acc = .ok acc')
    (hne : (x == k) = false) :
    getattrD acc'.obj.attrs x Val.none = getattrD acc.obj.attrs x Val.none := by
  unfold uff_plain_step at h
  by_cases hskip : (!force && !(getattrD acc.obj.attrs k Val.none == Val.none
      || getattrD acc.obj.attrs k Val.none == Val.str "")) = true
  · rw [if_pos hskip] at h
    injection h with h
    rw [← h]
  · rw [if_neg hskip] at h
    cases hpt : plainTransform ctx db k u with
    | error e =>
      rw [hpt] at h
      simp [Bind.bind, Except.bind] at h
    | ok w =>
      rw [hpt] at h
      simp only [Bind.bind, Except.bind] at h
      injection h with h
      rw [← h]
      exact getattrD_setattrV_ne acc.obj.attrs k x w Val.none hne

/-- An unforced plain step never changes an attribute whose current value
is neither `None` nor the empty string. -/
theorem uff_plain_step_frame (ctx : ActionCtx) (db : DB) (a : String) (v : Val)
    (acc acc' : UffAcc) (x : String)
    (h : uff_plain_step ctx db false a v acc = .ok acc')
    (hx1 : getattrD acc.obj.attrs x Val.none ≠ Val.none)
    (hx2 : getattrD acc.obj.attrs x Val.none ≠ Val.str "") :
    getattrD acc'.obj.attrs x Val.none = getattrD acc.obj.attrs x Val.none := by
  by_cases hxa : x = a
  · subst hxa
    unfold uff_plain_step at h
    have hskip : (!false && !(getattrD acc.obj.attrs x Val.none == Val.none
        || getattrD acc.obj.attrs x Val.none == Val.str "")) = true := by
      cases h1 : (getattrD acc.obj.attrs x Val.none == Val.none) with
      | true => exact absurd (by simpa using h1) hx1
      | false =>
        cases h2 : (getattrD acc.obj.attrs x Val.none == Val.str "") with
        | true => exact absurd (by simpa using h2) hx2
        | false => simp [h1, h2]
    rw [if_pos hskip] at h
    injection h with h
    rw [← h]
  · exact uff_plain_step_lookup_ne ctx db false a v acc acc' x h
      (beq_eq_false_iff_ne.mpr hxa)

/-- The unforced first loop never changes an attribute whose current
value is neither `None` nor the empty string. -/
theorem uff_phase1_frame (ctx : ActionCtx) (db : DB) (x : String) :
    ∀ (l : List (String × Val)) (acc acc' : UffAcc),
      uff_phase1 ctx db false l acc = .ok acc' →
      getattrD acc.obj.attrs x Val.none ≠ Val.none →
      getattrD acc.obj.attrs x Val.none ≠ Val.str "" →
      getattrD acc'.obj.attrs x Val.none = getattrD acc.obj.attrs x Val.none := by
  intro l
  induction l with
  | nil =>
    intro acc acc' h h1 h2
    simp only [uff_phase1] at h
    injection h with h
    rw [h]
  | cons p rest ih =>
    intro acc acc' h h1 h2
    obtain ⟨a, v⟩ := p
    have hplain : ∀ h' : Bind.bind (uff_plain_step ctx db false a v acc)
        (uff_phase1 ctx db false rest) = Except.ok acc',
        getattrD acc'.obj.attrs x Val.none = getattrD acc.obj.attrs x Val.none := by
      intro h'
      cases hstep : uff_plain_step ctx db false a v acc with
      | error e =>
        rw [hstep] at h'
        simp [Bind.bind, Except.bind] at h'
      | ok acc1 =>
        rw [hstep] at h'
        simp only [Bind.bind, Except.bind] at h'
        have hx := uff_plain_step_frame ctx db a v acc acc1 x hstep h1 h2
        have h1' : getattrD acc1.obj.attrs x Val.none ≠ Val.none := by
          rw [hx]; exact h1
        have h2' : getattrD acc1.obj.attrs x Val.none ≠ Val.str "" := by
          rw [hx]; exact h2
        rw [ih acc1 acc' h' h1' h2', hx]
    cases hsplit : pySplitArrow a with
    | nil =>
      simp only [uff_phase1, hsplit] at h
      exact hplain h
    | cons p0 ps =>
      cases ps with
      | nil =>
        simp only [uff_phase1, hsplit] at h
        exact hplain h
      | cons p1 ps2 =>
        simp only [uff_phase1, hsplit] at h
        by_cases hv : (v != Val.str "") = true
        · rw [if_pos hv] at h
          exact ih { acc with refs := refInsert acc.refs p0 p1 v } acc' h h1 h2
        · rw [if_neg hv] at h
          exact hplain h

/-- An unforced referential step never changes an attribute whose current
value is not `None`. -/
theorem uff_ref_step_frame (ctx : ActionCtx) (db : DB) (a : String)
    (gb : List (String × Val)) (obj : Obj) (x : String)
    (hx : getattrD obj.attrs x Val.none ≠ Val.none) :
    getattrD (uff_ref_step ctx db false a gb obj).attrs x Val.none
      = getattrD obj.attrs x Val.none := by
  cases hf : ctx.meta.get_field a with
  | none => simp [uff_ref_step, hf]
  | some fi =>
    cases hrm : fi.relatedModel with
    | none => simp [uff_ref_step, hf, hrm]
    | some rm =>
      by_cases hcur : (!false && getattrD obj.attrs a Val.none != Val.none) = true
      · simp only [uff_ref_step, hf, hrm]
        rw [if_pos hcur]
      · simp only [uff_ref_step, hf, hrm]
        rw [if_neg hcur]
        have ha : getattrD obj.attrs a Val.none = Val.none := by
          cases hv : (getattrD obj.attrs a Val.none != Val.none) with
          | true => exact absurd (by simp [hv]) hcur
          | false => simpa using hv
        have hxa : (x == a) = false := by
          apply beq_eq_false_iff_ne.mpr
          intro e
          rw [e] at hx
          exact hx ha
        cases hg : getSingle PyErr.doesNotExist ((db.rowsOf rm).filter (fun r =>
            gb.all (fun p => getattrD r.attrs p.1 Val.none == p.2))) with
        | ok target => exact getattrD_setattrV_ne obj.attrs a x _ Val.none hxa
        | error e => rfl

/-- The unforced referential loop never changes an attribute whose
current value is not `None`. -/
theorem uff_phase2_frame (ctx : ActionCtx) (db : DB) (x : String) :
    ∀ (refs : List (String × List (String × Val))) (obj : Obj),
      getattrD obj.attrs x Val.none ≠ Val.none →
      getattrD (uff_phase2 ctx db false refs obj).attrs x Val.none
        = getattrD obj.attrs x Val.none := by
  intro refs
  induction refs with
  | nil => intro obj h; rfl
  | cons p rest ih =>
    intro obj h
    obtain ⟨k, gb⟩ := p
    rw [uff_phase2]
    have hstep := uff_ref_step_frame ctx db k gb obj x h
    rw [ih _ (by rw [hstep]; exact h), hstep]

/-- `update_from_fields` with `force=false` leaves every attribute with a
non-empty current value unchanged (default configuration). -/
theorem update_from_fields_unforced_frame (ctx : ActionCtx)
    (hrel : ctx.rel_by_external_key = false) (db : DB) (obj obj' : Obj) (x : String)
    (h : update_from_fields ctx db obj false = .ok obj')
    (h1 : getattrD obj.attrs x Val.none ≠ Val.none)
    (h2 : getattrD obj.attrs x Val.none ≠ Val.str "") :
    getattrD obj'.attrs x Val.none = getattrD obj.attrs x Val.none := by
  obtain ⟨acc0, h0, hg0, hp0⟩ := uff_phase1_noRel ctx hrel db false ctx.fields ⟨obj, [], []⟩
  have hg0' : acc0.gfks = [] := hg0
  unfold update_from_fields at h
  rw [h0] at h
  simp only [Bind.bind, Except.bind, hg0', uff_phase3] at h
  injection h with h
  rw [← h]
  have hph1 := uff_phase1_frame ctx db x ctx.fields ⟨obj, [], []⟩ acc0 h0 h1 h2
  rw [uff_phase2_frame ctx db x acc0.refs acc0.obj (by rw [hph1]; exact h1), hph1]

/-- The base attribute written by a referential directive (a key
containing `=>` with a non-empty value), if any. -/
def refBase (d : String × Val) : Option String :=
  match pySplitArrow d.1 with
  | p0 :: _ :: _ => if d.2 != Val.str "" then some p0 else Option.none
  | _ => Option.none

/-- A forced plain step assigns the transformed value unconditionally. -/
theorem uff_plain_step_force (ctx : ActionCtx) (hrel : ctx.rel_by_external_key = false)
    (db : DB) (a : String) (u w : Val) (acc : UffAcc)
    (hw : plainTransform ctx db a u = .ok w) :
    uff_plain_step ctx db true a u acc =
      .ok ⟨⟨acc.obj.pk, setattrV acc.obj.attrs a w⟩, acc.refs, acc.gfks⟩ := by
  unfold uff_plain_step
  rw [if_neg (by simp), hw]
  simp [Bind.bind, Except.bind, hrel]

/-- A plain step never touches the referential-attribute buckets. -/
theorem uff_plain_step_refs (ctx : ActionCtx) (db : DB) (force : Bool)
    (k : String) (u : Val) (acc acc' : UffAcc)
    (h : uff_plain_step ctx db force k u acc = .ok acc') :
    acc'.refs = acc.refs := by
  unfold uff_plain_step at h
  by_cases hskip : (!force && !(getattrD acc.obj.attrs k Val.none == Val.none
      || getattrD acc.obj.attrs k Val.none == Val.str "")) = true
  · rw [if_pos hskip] at h
    injection h with h
    rw [← h]
  · rw [if_neg hskip] at h
    cases hpt : plainTransform ctx db k u with
    | error e =>
      rw [hpt] at h
      simp [Bind.bind, Except.bind] at h
    | ok w =>
      rw [hpt] at h
      simp only [Bind.bind, Except.bind] at h
      injection h with h
      rw [← h]

/-- `refInsert` introduces no bucket for a base other than the inserted
one. -/
theorem refInsert_bases (acc : List (String × List (String × Val))) (base sub : String)
    (v : Val) (x : String) (hacc : ∀ p ∈ acc, p.1 ≠ x) (hb : base ≠ x) :
    ∀ p ∈ refInsert acc base sub v, p.1 ≠ x := by
  intro p hp
  unfold refInsert at hp
  by_cases ha : acc.any (fun q => q.1 == base) = true
  · rw [if_pos ha] at hp
    obtain ⟨q, hq, hfq⟩ := List.mem_map.mp hp
    by_cases hqb : (q.1 == base) = true
    · rw [if_pos hqb] at hfq
      rw [← hfq]
      exact hb
    · rw [if_neg hqb] at hfq
      rw [← hfq]
      exact hacc q hq
  · rw [if_neg ha] at hp
    rcases List.mem_append.mp hp with hin | hin
    · exact hacc p hin
    · rw [List.mem_singleton] at hin
      rw [hin]
      exact hb

/-- Every referential bucket produced by the first loop stems from a
directive whose `refBase` is that bucket's base. -/
theorem uff_phase1_refs_bases (ctx : ActionCtx) (db : DB) (force : Bool) (x : String) :
    ∀ (l : List (String × Val)) (acc acc' : UffAcc),
      uff_phase1 ctx db force l acc = .ok acc' →
      (∀ d ∈ l, refBase d ≠ some x) →
      (∀ p ∈ acc.refs, p.1 ≠ x) →
      ∀ p ∈ acc'.refs, p.1 ≠ x := by
  intro l
  induction l with
  | nil =>
    intro acc acc' h hl hacc
    simp only [uff_phase1] at h
    injection h with h
    rw [← h]
    exact hacc
  | cons d rest ih =>
    intro acc acc' h hl hacc
    obtain ⟨k, u⟩ := d
    have hplain : ∀ h' : Bind.bind (uff_plain_step ctx db force k u acc)
        (uff_phase1 ctx db force rest) = Except.ok acc',
        ∀ p ∈ acc'.refs, p.1 ≠ x := by
      intro h'
      cases hstep : uff_plain_step ctx db force k u acc with
      | error e =>
        rw [hstep] at h'
        simp [Bind.bind, Except.bind] at h'
      | ok acc1 =>
        rw [hstep] at h'
        simp only [Bind.bind, Except.bind] at h'
        refine ih acc1 acc' h' (fun d hd => hl d (List.mem_cons_of_mem _ hd)) ?_
        rw [uff_plain_step_refs ctx db force k u acc acc1 hstep]
        exact hacc
    cases hsp : pySplitArrow k with
    | nil =>
      simp only [uff_phase1, hsp] at h
      exact hplain h
    | cons p0 ps =>
      cases ps with
      | nil =>
        simp only [uff_phase1, hsp] at h
        exact hplain h
      | cons p1 ps2 =>
        simp only [uff_phase1, hsp] at h
        by_cases hv2 : (u != Val.str "") = true
        · rw [if_pos hv2] at h
          have hp0 : p0 ≠ x := by
            intro e
            apply hl (k, u) (List.mem_cons_self _ _)
            simp only [refBase, hsp]
            rw [if_pos hv2, e]
          exact ih { acc with refs := refInsert acc.refs p0 p1 u } acc' h
            (fun d hd => hl d (List.mem_cons_of_mem _ hd))
            (refInsert_bases acc.refs p0 p1 u x hacc hp0)
        · rw [if_neg hv2] at h
          exact hplain h

/-- Through the forced first loop, a plain directive's transformed value
ends up assigned, whichever directives surround it. -/
theorem uff_phase1_force_sets (ctx : ActionCtx) (hrel : ctx.rel_by_external_key = false)
    (db : DB) (a : String) (v w : Val)
    (hone : (pySplitArrow a).length = 1)
    (hw : plainTransform ctx db a v = .ok w) :
    ∀ (l : List (String × Val)) (acc acc' : UffAcc),
      uff_phase1 ctx db true l acc = .ok acc' →
      (∀ d ∈ l, d.1 = a → d.2 = v) →
      ((a, v) ∈ l ∨ getattrD acc.obj.attrs a Val.none = w) →
      getattrD acc'.obj.attrs a Val.none = w := by
  intro l
  induction l with
  | nil =>
    intro acc acc' h huniq hmem
    simp only [uff_phase1] at h
    injection h with h
    rcases hmem with hm | hm
    · exact absurd hm (List.not_mem_nil _)
    · rw [← h]
      exact hm
  | cons d rest ih =>
    intro acc acc' h huniq hmem
    obtain ⟨k, u⟩ := d
    by_cases hk : k = a
    · subst hk
      have hu : u = v := huniq (k, u) (List.mem_cons_self _ _) rfl
      subst hu
      cases hsp : pySplitArrow k with
      | nil =>
        rw [hsp] at hone
        simp at hone
      | cons s ps =>
        cases ps with
        | cons s2 ps2 =>
          rw [hsp] at hone
          simp at hone
        | nil =>
          simp only [uff_phase1, hsp] at h
          rw [uff_plain_step_force ctx hrel db k u w acc hw] at h
          simp only [Bind.bind, Except.bind] at h
          refine ih _ acc' h (fun d hd hda => huniq d (List.mem_cons_of_mem _ hd) hda)
            (Or.inr ?_)
          exact getattrD_setattrV_self acc.obj.attrs k w Val.none
    · have hxa : (a == k) = false := beq_eq_false_iff_ne.mpr (fun e => hk e.symm)
      have hplain : ∀ h' : Bind.bind (uff_plain_step ctx db true k u acc)
          (uff_phase1 ctx db true rest) = Except.ok acc',
          getattrD acc'.obj.attrs a Val.none = w := by
        intro h'
        cases hstep : uff_plain_step ctx db true k u acc with
        | error e =>
          rw [hstep] at h'
          simp [Bind.bind, Except.bind] at h'
        | ok acc1 =>
          rw [hstep] at h'
          simp only [Bind.bind, Except.bind] at h'
          have hpres := uff_plain_step_lookup_ne ctx db true k u acc acc1 a hstep hxa
          refine ih acc1 acc' h' (fun d hd hda => huniq d (List.mem_cons_of_mem _ hd) hda) ?_
          rcases hmem with hm | hm
          · rcases List.mem_cons.mp hm with he | hm2
            · exact absurd (congrArg Prod.fst he).symm hk
            · exact Or.inl hm2
          · exact Or.inr (by rw [hpres]; exact hm)
      cases hsp : pySplitArrow k with
      | nil =>
        simp only [uff_phase1, hsp] at h
        exact hplain h
      | cons p0 ps =>
        cases ps with
        | nil =>
          simp only [uff_phase1, hsp] at h
          exact hplain h
        | cons p1 ps2 =>
          simp only [uff_phase1, hsp] at h
          by_cases hv2 : (u != Val.str "") = true
          · rw [if_pos hv2] at h
            refine ih { acc with refs := refInsert acc.refs p0 p1 u } acc' h
              (fun d hd hda => huniq d (List.mem_cons_of_mem _ hd) hda) ?_
            rcases hmem with hm | hm
            · rcases List.mem_cons.mp hm with he | hm2
              · exact absurd (congrArg Prod.fst he).symm hk
              · exact Or.inl hm2
            · exact Or.inr hm
          · rw [if_neg hv2] at h
            exact hplain h

/-- A referential step never touches attributes other than its own base. -/
theorem uff_ref_step_lookup_ne (ctx : ActionCtx) (db : DB) (force : Bool)
    (k : String) (gb : List (String × Val)) (obj : Obj) (x : String)
    (hne : (x == k) = false) :
    getattrD (uff_ref_step ctx db force k gb obj).attrs x Val.none
      = getattrD obj.attrs x Val.none := by
  cases hf : ctx.meta.get_field k with
  | none => simp [uff_ref_step, hf]
  | some fi =>
    cases hrm : fi.relatedModel with
    | none => simp [uff_ref_step, hf, hrm]
    | some rm =>
      by_cases hcur : (!force && getattrD obj.attrs k Val.none != Val.none) = true
      · simp only [uff_ref_step, hf, hrm]
        rw [if_pos hcur]
      · simp only [uff_ref_step, hf, hrm]
        rw [if_neg hcur]
        cases hg : getSingle PyErr.doesNotExist ((db.rowsOf rm).filter (fun r =>
            gb.all (fun p => getattrD r.attrs p.1 Val.none == p.2))) with
        | ok target => exact getattrD_setattrV_ne obj.attrs k x _ Val.none hne
        | error e => rfl

/-- The referential loop only writes the buckets' base attributes. -/
theorem uff_phase2_lookup_frame (ctx : ActionCtx) (db : DB) (force : Bool) (x : String) :
    ∀ (refs : List (String × List (String × Val))) (obj : Obj),
      (∀ p ∈ refs, p.1 ≠ x) →
      getattrD (uff_phase2 ctx db force refs obj).attrs x Val.none
        = getattrD obj.attrs x Val.none := by
  intro refs
  induction refs with
  | nil =>
    intro obj h
    rfl
  | cons p rest ih =>
    intro obj h
    obtain ⟨k, gb⟩ := p
    rw [uff_phase2]
    rw [ih _ (fun q hq => h q (List.mem_cons_of_mem _ hq))]
    exact uff_ref_step_lookup_ne ctx db force k gb obj x
      (beq_eq_false_iff_ne.mpr (fun e => h (k, gb) (List.mem_cons_self _ _) e.symm))

/-- A forced referential step assigns the looked-up related object
whatever the current value of the base attribute. -/
theorem uff_ref_step_force_assigns (ctx : ActionCtx) (db : DB) (a : String)
    (gb : List (String × Val)) (o : Obj) (fi : FieldInfo) (rm : String) (target : Row)
    (hf : ctx.meta.get_field a = some fi)
    (hrm : fi.relatedModel = some rm)
    (hg : getSingle PyErr.doesNotExist ((db.rowsOf rm).filter (fun r =>
        gb.all (fun p => getattrD r.attrs p.1 Val.none == p.2))) = .ok target) :
    getattrD (uff_ref_step ctx db true a gb o).attrs a Val.none
      = Val.ref rm target.pk := by
  simp only [uff_ref_step, hf, hrm]
  rw [if_neg (by simp), hg]
  exact getattrD_setattrV_self o.attrs a (Val.ref rm target.pk) Val.none

/-- `update_from_fields` with `force=true` assigns every plain
directive's transformed value (default configuration). -/
theorem update_from_fields_force_assigns (ctx : ActionCtx)
    (hrel : ctx.rel_by_external_key = false) (db : DB) (obj obj' : Obj)
    (a : String) (v w : Val)
    (hmem : (a, v) ∈ ctx.fields)
    (huniq : ∀ d ∈ ctx.fields, d.1 = a → d.2 = v)
    (hnoref : ∀ d ∈ ctx.fields, refBase d ≠ some a)
    (hone : (pySplitArrow a).length = 1)
    (hw : plainTransform ctx db a v = .ok w)
    (h : update_from_fields ctx db obj true = .ok obj') :
    getattrD obj'.attrs a Val.none = w := by
  obtain ⟨acc0, h0, hg0, hp0⟩ := uff_phase1_noRel ctx hrel db true ctx.fields ⟨obj, [], []⟩
  have hg0' : acc0.gfks = [] := hg0
  unfold update_from_fields at h
  rw [h0] at h
  simp only [Bind.bind, Except.bind, hg0', uff_phase3] at h
  injection h with h
  rw [← h]
  have hset := uff_phase1_force_sets ctx hrel db a v w hone hw ctx.fields
    ⟨obj, [], []⟩ acc0 h0 huniq (Or.inl hmem)
  have hbases := uff_phase1_refs_bases ctx db true a ctx.fields ⟨obj, [], []⟩ acc0 h0
    hnoref (fun p hp => absurd hp (List.not_mem_nil p))
  rw [uff_phase2_lookup_frame ctx db true a acc0.refs acc0.obj hbases, hset]

/-- Fixture: a person model with a plain `name` column and a `spouse`
foreign key to person, updating `name` from the CSV value `Bob`. -/
def ctxC6 : ActionCtx :=
  { meta := ⟨"person", [("name", {}), ("spouse", { relatedModel := some "person" })],
      [], fun _ => Option.none⟩,
    match_on := ["name"],
    fields := [("name", Val.str "Bob")] }

/-- Fixture: one person row and one related person row (`Eve`, pk 7). -/
def dbC6 : DB :=
  { objects := [⟨1, [("name", Val.str "Ann")]⟩],
    mappings := [],
    related := [("person", [⟨7, [("name", Val.str "Eve")]⟩])],
    uniqueFields := [],
    nextPk := 2, nextMapPk := 1 }

/-- Fixture: the instance being updated, whose `name` is `Ann`. -/
def objAnnC6 : Obj := ⟨some 1, [("name", Val.str "Ann")]⟩

/-- C6: the force semantics of `update_from_fields` (actions.py lines
226-252 and 277-280), in the default configuration
(`rel_by_external_key` off).  (1) With `force=false` every attribute
whose current value is neither `None` nor the empty string is left
unchanged; this covers plain attributes with a non-empty current value
as well as referential attributes whose current related value is
non-null.  (2) With `force=true` every plain directive's (transformed)
value is assigned regardless of the current value, provided the
directive's key names a plain attribute (it contains no `=>`), repeated
keys carry the same value, and no referential directive targets the same
attribute.  (3) With `force=true` a referential directive whose
sub-field lookup finds exactly one related object assigns that object
regardless of the current value of the base attribute. -/
theorem update_from_fields_force_semantics (ctx : ActionCtx) (db : DB)
    (hrel : ctx.rel_by_external_key = false) :
    (∀ (obj obj' : Obj) (x : String),
        update_from_fields ctx db obj false = .ok obj' →
        getattrD obj.attrs x Val.none ≠ Val.none →
        getattrD obj.attrs x Val.none ≠ Val.str "" →
        getattrD obj'.attrs x Val.none = getattrD obj.attrs x Val.none)
    ∧ (∀ (obj obj' : Obj) (a : String) (v w : Val),
        (a, v) ∈ ctx.fields →
        (∀ d ∈ ctx.fields, d.1 = a → d.2 = v) →
        (∀ d ∈ ctx.fields, refBase d ≠ some a) →
        (pySplitArrow a).length = 1 →
        plainTransform ctx db a v = .ok w →
        update_from_fields ctx db obj true = .ok obj' →
        getattrD obj'.attrs a Val.none = w)
    ∧ (∀ (a : String) (gb : List (String × Val)) (o : Obj) (fi : FieldInfo)
          (rm : String) (target : Row),
        ctx.meta.get_field a = some fi →
        fi.relatedModel = some rm →
        getSingle PyErr.doesNotExist ((db.rowsOf rm).filter (fun r =>
            gb.all (fun p => getattrD r.attrs p.1 Val.none == p.2))) = .ok target →
        getattrD (uff_ref_step ctx db true a gb o).attrs a Val.none
          = Val.ref rm target.pk) := by
  refine ⟨?_, ?_, ?_⟩
  · intro obj obj' x h h1 h2
    exact update_from_fields_unforced_frame ctx hrel db obj obj' x h h1 h2
  · intro obj obj' a v w hmem huniq hnoref hone hw h
    exact update_from_fields_force_assigns ctx hrel db obj obj' a v w hmem huniq
      hnoref hone hw h
  · intro a gb o fi rm target hf hrm hg
    exact uff_ref_step_force_assigns ctx db a gb o fi rm target hf hrm hg

/-- Witness for C6 on the fixture: the unforced run leaves `name = Ann`
untouched, the forced run overwrites it with `Bob`, and the forced
referential step assigns Eve's record to `spouse`. -/
theorem update_from_fields_force_semantics_witness :
    getattrD ((⟨some 1, [("name", Val.str "Ann")]⟩ : Obj)).attrs "name" Val.none
        = getattrD objAnnC6.attrs "name" Val.none ∧
    getattrD ((⟨some 1, [("name", Val.str "Bob")]⟩ : Obj)).attrs "name" Val.none
        = Val.str "Bob" ∧
    getattrD (uff_ref_step ctxC6 dbC6 true "spouse" [("name", Val.str "Eve")]
        objAnnC6).attrs "spouse" Val.none = Val.ref "person" 7 := by
  refine ⟨?_, ?_, ?_⟩
  · exact (update_from_fields_force_semantics ctxC6 dbC6 rfl).1 objAnnC6
      ⟨some 1, [("name", Val.str "Ann")]⟩ "name" rfl (by decide) (by decide)
  · exact (update_from_fields_force_semantics ctxC6 dbC6 rfl).2.1 objAnnC6
      ⟨some 1, [("name", Val.str "Bob")]⟩ "name" (Val.str "Bob") (Val.str "Bob")
      (by decide) (by decide) (by decide) (by decide) rfl rfl
  · exact (update_from_fields_force_semantics ctxC6 dbC6 rfl).2.2 "spouse"
      [("name", Val.str "Eve")] objAnnC6 { relatedModel := some "person" } "person"
      ⟨7, [("name", Val.str "Eve")]⟩ rfl rfl rfl

end NSync
